import Mathlib

/-!
Verification of the CIR (Code Intermediate Representation) core of the
Safe-AI-Framework repository: a shallow embedding, in Lean 4, of the
Python sources under `backend/parse-core` (the `CIRGraph` container, the
Java and Python language adapters, the cross-file resolver) and
`backend/uml-gen-regex/uml_rules.py` (the rule-based diagram emitters),
together with theorems settling the specification claims about them.

Python strings are embedded as `List Char` (`PyStr`), with helper
functions mirroring the Python `str` operations the sources use
(`strip`, `startswith`, `endswith`, `split`, slicing).  Python dicts are
embedded as insertion-ordered association lists with replace-in-place
update, matching CPython's dict semantics (insertion order preserved,
assignment to an existing key keeps its position).  Fallible code is
embedded with `Except`/`Option`.
-/

/-- Embedded Python string: a list of characters. -/
abbrev PyStr := List Char

/-- Convert a Lean string literal to an embedded Python string. -/
def pyS (s : String) : PyStr := s.data

/-- `hasPre p s` is Python's `s.startswith(p)` (recursion on the pattern). -/
def hasPre : PyStr → PyStr → Bool
  | [], _ => true
  | _ :: _, [] => false
  | p :: ps, c :: cs => p == c && hasPre ps cs

/-- `hasSuf p s` is Python's `s.endswith(p)`. -/
def hasSuf (p s : PyStr) : Bool := hasPre p.reverse s.reverse

/-- ASCII whitespace recognised by Python's `str.strip()` (the sources only
ever strip ASCII annotation text). -/
def isPySpace (c : Char) : Bool :=
  c == ' ' || c == '\t' || c == '\n' || c == '\r' || c == '\x0b' || c == '\x0c'

/-- Python `s.strip()`: drop leading and trailing whitespace. -/
def pyStrip (s : PyStr) : PyStr :=
  ((s.dropWhile isPySpace).reverse.dropWhile isPySpace).reverse

/-- Python `s.split(sep)` for a one-character separator (the sources only
split on `","`, `"["`, `"."`).  Always returns at least one segment;
`"".split(sep) == [""]`. -/
def pySplitChar (sep : Char) : PyStr → List PyStr
  | [] => [[]]
  | c :: cs =>
    let r := pySplitChar sep cs
    if c == sep then [] :: r
    else (c :: r.headD []) :: r.tail

/-- Python `sep.join(parts)` for a one-character separator. -/
def pyJoinChar (sep : Char) : List PyStr → PyStr
  | [] => []
  | [p] => p
  | p :: ps => p ++ sep :: pyJoinChar sep ps

/-- Python `"\n".join(lines)`. -/
def joinNl : List PyStr → PyStr := pyJoinChar '\n'

/-- First character is a lowercase letter: `name[:1].islower()` in Python
(`""[:1].islower()` is `False`; an uncased character such as `_` is not
lowercase). -/
def firstIsLower : PyStr → Bool
  | [] => false
  | c :: _ => c.isLower

/-- First character is an uppercase letter: `name[:1].isupper()`. -/
def firstIsUpper : PyStr → Bool
  | [] => false
  | c :: _ => c.isUpper

/-- The chained expression `x.split("[")[0].split(".")[-1]` both adapters
use to shorten a type name (drop generic arguments, keep the last dotted
segment). -/
def shortBase (x : PyStr) : PyStr :=
  (pySplitChar '.' ((pySplitChar '[' x).headD [])).getLastD []

/-- Insertion-ordered Python dict as an association list.
`dictUpsert` is dict assignment: replace the value at the first
occurrence of the key (keeping its position), else append. -/
def dictUpsert {κ α : Type} [DecidableEq κ] : List (κ × α) → κ → α → List (κ × α)
  | [], k, v => [(k, v)]
  | (k', v') :: rest, k, v =>
    if k' = k then (k', v) :: rest else (k', v') :: dictUpsert rest k v

/-- Python dict lookup (`d.get(k)`): first entry with the key (the lists
built by `dictUpsert` hold each key at most once). -/
def dictGet {κ α : Type} [DecidableEq κ] (d : List (κ × α)) (k : κ) : Option α :=
  (d.find? (fun p => decide (p.1 = k))).map (·.2)

/-- Python `d.setdefault(k, []).append(v)`: append `v` to the bucket of
`k`, creating the bucket at the end of the dict if missing. -/
def dictAppend {κ α : Type} [DecidableEq κ] : List (κ × List α) → κ → α → List (κ × List α)
  | [], k, v => [(k, [v])]
  | (k', vs) :: rest, k, v =>
    if k' = k then (k', vs ++ [v]) :: rest else (k', vs) :: dictAppend rest k v

/-- `k in d` for an embedded dict. -/
def dictHas {κ α : Type} [DecidableEq κ] (d : List (κ × α)) (k : κ) : Bool :=
  d.any (fun p => decide (p.1 = k))

/-! ## Type-annotation resolution

`_resolve_annotation_str` from `adapters/python_adapter.py` (lines 98-134)
and `_resolve_type_name_and_multiplicity` from `adapters/java_adapter.py`
(lines 51-96).  The prefix tables below are `_DICT_PREFIXES`,
`_OPTIONAL_PREFIXES`' companions and `_COLLECTION_PREFIXES` from the
Python adapter, in source order. -/

def dictPres : List PyStr :=
  [['D', 'i', 'c', 't', '['],
   ['d', 'i', 'c', 't', '['],
   ['M', 'a', 'p', 'p', 'i', 'n', 'g', '['],
   ['M', 'u', 't', 'a', 'b', 'l', 'e', 'M', 'a', 'p', 'p', 'i', 'n', 'g', '['],
   ['D', 'e', 'f', 'a', 'u', 'l', 't', 'D', 'i', 'c', 't', '['],
   ['O', 'r', 'd', 'e', 'r', 'e', 'd', 'D', 'i', 'c', 't', '['],
   ['C', 'h', 'a', 'i', 'n', 'M', 'a', 'p', '[']]

def collectionPres : List PyStr :=
  [['L', 'i', 's', 't', '['],
   ['l', 'i', 's', 't', '['],
   ['S', 'e', 't', '['],
   ['s', 'e', 't', '['],
   ['F', 'r', 'o', 'z', 'e', 'n', 'S', 'e', 't', '['],
   ['f', 'r', 'o', 'z', 'e', 'n', 's', 'e', 't', '['],
   ['S', 'e', 'q', 'u', 'e', 'n', 'c', 'e', '['],
   ['M', 'u', 't', 'a', 'b', 'l', 'e', 'S', 'e', 'q', 'u', 'e', 'n', 'c', 'e', '['],
   ['D', 'e', 'q', 'u', 'e', '['],
   ['T', 'u', 'p', 'l', 'e', '['],
   ['t', 'u', 'p', 'l', 'e', '[']]

/-- `_resolve_annotation_str(raw)` from the Python adapter: map an
annotation string to `(logical_type, raw_type, multiplicity)`.  The two
`for prefix in ...` loops of the source are rendered as `List.any` /
`List.find?` over the same prefix tables; slicing `s[len(prefix):-1]` is
`(s.drop prefix.length).dropLast`. -/
def resolveAnnotStr (raw : PyStr) : PyStr × PyStr × Option PyStr :=
  let s := pyStrip raw
  if dictPres.any (fun p => hasPre p s && hasSuf (pyS "]") s) then
    (pyS "Any", s, some (pyS "0..*"))
  else if hasPre (pyS "Optional[") s && hasSuf (pyS "]") s then
    (shortBase (pyStrip ((s.drop 9).dropLast)), s, some (pyS "0..1"))
  else if hasPre (pyS "Union[") s && hasSuf (pyS "]") s then
    match ((pySplitChar ',' (pyStrip ((s.drop 6).dropLast))).map pyStrip).filter
        (fun p => !(p == pyS "None" || p == pyS "NoneType" || p == pyS "type[None]")) with
    | p0 :: _ => (shortBase p0, s, some (pyS "0..1"))
    | [] => (pyS "None", s, some (pyS "0..1"))
  else
    match collectionPres.find? (fun p => hasPre p s && hasSuf (pyS "]") s) with
    | some p =>
      (shortBase (pyStrip ((pySplitChar ',' (pyStrip ((s.drop p.length).dropLast))).headD [])),
       s, some (pyS "1..*"))
    | none => (shortBase s, s, some (pyS "1"))

/-- `_resolve_annotation(annotation)`: `None` (or an `ast.unparse`
failure) gives `("Any", "Any", None)`, otherwise the string form is
resolved. -/
def resolveAnnot : Option PyStr → PyStr × PyStr × Option PyStr
  | none => (pyS "Any", pyS "Any", none)
  | some raw => resolveAnnotStr raw

/-- A javalang type node as consumed by
`JavaAdapter._resolve_type_name_and_multiplicity`: its `name`, the inner
type names of its generic `arguments` (an argument without an accessible
type name — e.g. a wildcard — is `none`), and whether `dimensions` is
non-empty. -/
structure JavaType where
  name : PyStr
  arguments : List (Option PyStr)
  dims : Bool
deriving DecidableEq

/-- `JavaAdapter.COLLECTION_TYPES`. -/
def javaCollectionTypes : List PyStr :=
  [['L', 'i', 's', 't'], ['S', 'e', 't'],
   ['C', 'o', 'l', 'l', 'e', 'c', 't', 'i', 'o', 'n'], ['M', 'a', 'p']]

/-- `JavaAdapter._resolve_type_name_and_multiplicity(t)` (lines 51-96):
derive `(logical_type, raw_type, multiplicity)` from a javalang type
node (`None` maps to `void`). -/
def resolveJavaTypeMult : Option JavaType → PyStr × PyStr × Option PyStr
  | none => (pyS "void", pyS "void", none)
  | some t =>
    let base := t.name
    -- generics: if `t.arguments` is truthy and the first argument has a
    -- name, the logical type becomes that name with multiplicity 1..*
    let gen : PyStr × PyStr × Option PyStr :=
      match t.arguments with
      | (some inner) :: _ => (inner, base ++ pyS "<" ++ inner ++ pyS ">", some (pyS "1..*"))
      | _ => (base, base, none)
    -- arrays `T[]`: multiplicity defaults to 0..* and `[]` is appended
    let mult2 : Option PyStr := if t.dims then some (gen.2.2.getD (pyS "0..*")) else gen.2.2
    let raw2 : PyStr := if t.dims then gen.2.1 ++ pyS "[]" else gen.2.1
    -- bare collection name without generic arguments → 0..*
    let mult3 : Option PyStr :=
      if base ∈ javaCollectionTypes ∧ mult2 = none then some (pyS "0..*") else mult2
    -- default multiplicity for single values
    let mult4 : Option PyStr :=
      if mult3 = none ∧ ¬base ∈ javaCollectionTypes then some (pyS "1") else mult3
    (gen.1, raw2, mult4)

/-! ## CIR data model (`cir/model.py`)

`Field` is renamed `FieldNode` (the name `Field` is taken by Mathlib);
`Method` and `Parameter` are renamed in the same style.  Modifier sets
(`Tuple[str, ...]` / Python sets in the Java adapter) are lists of
tokens. -/

structure TypeDecl where
  id : PyStr
  name : PyStr
  kind : PyStr
  visibility : PyStr
  package : Option PyStr
  modifiers : List PyStr
  is_abstract : Bool
  is_final : Bool
deriving DecidableEq

structure FieldNode where
  id : PyStr
  name : PyStr
  type_name : PyStr
  raw_type : PyStr
  visibility : PyStr
  modifiers : List PyStr
  multiplicity : Option PyStr
deriving DecidableEq

structure MethodNode where
  id : PyStr
  name : PyStr
  return_type : PyStr
  raw_return_type : PyStr
  visibility : PyStr
  modifiers : List PyStr
  is_constructor : Bool
  is_static : Bool
  is_abstract : Bool
  is_final : Bool
deriving DecidableEq

structure ParamNode where
  id : PyStr
  name : PyStr
  type_name : PyStr
  raw_type : PyStr
deriving DecidableEq

inductive NodePayload where
  | typeDecl (t : TypeDecl)
  | fieldNode (f : FieldNode)
  | methodNode (m : MethodNode)
  | paramNode (p : ParamNode)
deriving DecidableEq

/-! ## The CIR graph container (`cir/graph.py`) -/

/-- One edge record as stored by `CIRGraph.add_edge`: the wrapper passes
only `etype=etype` to the underlying `networkx` multigraph, so an edge
carries no further attributes. -/
structure CIREdgeRec where
  src : PyStr
  dst : PyStr
  etype : PyStr
deriving DecidableEq

/-- `CIRGraph` (graph.py): a typed multigraph.  Nodes are keyed by id
(`add_node` on an existing id replaces the payload, never duplicates);
edges are appended (`add_edge` never deduplicates). -/
structure CIRGraph where
  nodes : List (PyStr × (PyStr × NodePayload))
  edges : List CIREdgeRec
deriving DecidableEq

def emptyCIRGraph : CIRGraph := ⟨[], []⟩

/-- `CIRGraph.add_node(node_id, kind, payload)` (graph.py line 14). -/
def CIRGraph.add_node (g : CIRGraph) (nodeId kind : PyStr) (payload : NodePayload) : CIRGraph :=
  { g with nodes := dictUpsert g.nodes nodeId (kind, payload) }

/-- `CIRGraph.add_edge(src, dst, etype)` (graph.py lines 17-22).  The
signature has exactly these three parameters and no `**attrs`. -/
def CIRGraph.add_edge (g : CIRGraph) (src dst etype : PyStr) : CIRGraph :=
  { g with edges := g.edges ++ [⟨src, dst, etype⟩] }

/-- A keyword-attribute value passed by an adapter at an `add_edge` call
site (`multiplicity=...` may be a string or `None`; `order=...` is an
integer). -/
inductive AttrVal where
  | strV (v : PyStr)
  | natV (v : Nat)
  | nullV
deriving DecidableEq

def attrOfOpt : Option PyStr → AttrVal
  | some v => .strV v
  | none => .nullV

/-- One `graph.add_edge(src, dst, etype, key=value, ...)` call as the
resolver code writes it: positional arguments plus keyword arguments. -/
structure EmitCall where
  src : PyStr
  dst : PyStr
  etype : PyStr
  kwargs : List (PyStr × AttrVal)
deriving DecidableEq

def typeErrMsg : PyStr :=
  pyS "TypeError: add_edge() got an unexpected keyword argument"

/-- Execute one `graph.add_edge(...)` call with Python call semantics:
`CIRGraph.add_edge` (graph.py) declares exactly the parameters `src`,
`dst`, `etype` — no keyword parameters and no `**kwargs` — so a call
passing any keyword argument raises `TypeError` before the method body
runs; a plain three-argument call runs the body. -/
def runAddEdgeCall (g : CIRGraph) (c : EmitCall) : Except PyStr CIRGraph :=
  if c.kwargs = [] then .ok (g.add_edge c.src c.dst c.etype) else .error typeErrMsg

/-- Execute a sequence of `add_edge` calls; an uncaught exception aborts
the rest (the resolver loops have no handler around `add_edge`). -/
def runAddEdgeCalls (g : CIRGraph) : List EmitCall → Except PyStr CIRGraph
  | [] => .ok g
  | c :: cs =>
    match runAddEdgeCall g c with
    | .ok g' => runAddEdgeCalls g' cs
    | .error e => .error e

/-! ## Adapter-local units

The per-type `unit` dicts accumulated by `_process_class` /
`_process_compilation_unit` and consumed by `_add_relationship_edges`.
The dict keys `extends` / `implements` are rendered `extendsL` /
`implementsL` (`extends` is a Lean keyword). -/

structure UField where
  id : PyStr
  name : PyStr
  element_type : PyStr
  raw_type : PyStr
  multiplicity : Option PyStr
deriving DecidableEq

structure UParam where
  id : PyStr
  name : PyStr
  type_name : PyStr
deriving DecidableEq

structure UMethod where
  id : PyStr
  name : PyStr
  return_type : PyStr
  params : List UParam
deriving DecidableEq

/-- One extracted call record `{src_method_id, qualifier_kind,
qualifier, member, order}`. -/
structure CallRec where
  src_method_id : PyStr
  qualifier_kind : PyStr
  qualifier : PyStr
  member : PyStr
  order : Nat
deriving DecidableEq

structure UnitRec where
  id : PyStr
  short_name : PyStr
  full_name : PyStr
  fields : List UField
  methods : List UMethod
  extendsL : List PyStr
  implementsL : List PyStr
  calls : List CallRec
deriving DecidableEq

/-! ## Cross-file resolution (`_add_relationship_edges`, both adapters)

`PythonAdapter._add_relationship_edges` (python_adapter.py lines
704-858) and `JavaAdapter._add_relationship_edges` (java_adapter.py
lines 429-583) are embedded as functions from the accumulated
`type_nodes` map and `units` list to the ordered list of
`graph.add_edge(...)` calls they make. -/

structure ResolveCtx where
  fullToId : List (PyStr × PyStr)
  shortToIds : List (PyStr × List PyStr)
  idToFull : List (PyStr × PyStr)
deriving DecidableEq

/-- Build the three indices from `type_nodes` (full name → type id):
`full_to_id = dict(type_nodes)`, `short_to_ids` by appending each id to
its short-name bucket in insertion order, `id_to_full` by assignment. -/
def buildResolveCtx (typeNodes : List (PyStr × PyStr)) : ResolveCtx :=
  { fullToId := typeNodes
    shortToIds :=
      typeNodes.foldl (fun m fn => dictAppend m ((pySplitChar '.' fn.1).getLastD []) fn.2) []
    idToFull := typeNodes.foldl (fun m fn => dictUpsert m fn.2 fn.1) [] }

/-- `_pkg(full_name)`: the dotted package part, `""` when there is no
dot. -/
def pkgOf (full : PyStr) : PyStr :=
  let parts := pySplitChar '.' full
  if 1 < parts.length then pyJoinChar '.' parts.dropLast else []

/-- The `same_pkg` list both resolvers build when several candidates
share a short name: the candidates whose package equals the source
type's package. -/
def samePkgFilter (ctx : ResolveCtx) (cands : List PyStr) (srcId : PyStr) : List PyStr :=
  cands.filter
    (fun c => decide (pkgOf ((dictGet ctx.idToFull c).getD []) =
      pkgOf ((dictGet ctx.idToFull srcId).getD [])))

/-- `resolve_type(tname, src_id)` (Python adapter lines 726-740) =
`resolve_type_name(tname, src_id)` (Java adapter lines 452-474; the two
functions are line-for-line the same logic): 1) exact full-name match;
2) unique short-name candidate; 3) among several candidates prefer the
unique one in the source type's package, else fail. -/
def resolveTypeName (ctx : ResolveCtx) (tname srcId : PyStr) : Option PyStr :=
  match dictGet ctx.fullToId tname with
  | some tid => some tid
  | none =>
    match dictGet ctx.shortToIds tname with
    | none => none
    | some [] => none
    | some [c] => some c
    | some cands =>
      if (samePkgFilter ctx cands srcId).length = 1 then
        some ((samePkgFilter ctx cands srcId).headD [])
      else none

/-- `method_index[(type_id, method_name)] = method_id`, skipping entries
with a falsy id or name. -/
def buildMethodIndex (units : List UnitRec) : List ((PyStr × PyStr) × PyStr) :=
  units.foldl
    (fun idx u =>
      u.methods.foldl
        (fun idx m =>
          if m.id ≠ [] ∧ m.name ≠ [] then dictUpsert idx (u.id, m.name) m.id else idx)
        idx)
    []

/-- `field_type_by_name` for one unit (entries with falsy name or type
are skipped). -/
def fieldTypeByName (u : UnitRec) : List (PyStr × PyStr) :=
  u.fields.foldl
    (fun m f => if f.name ≠ [] ∧ f.element_type ≠ [] then dictUpsert m f.name f.element_type else m)
    []

/-- `method_param_types`: method id → {param name → param type}. -/
def methodParamTypes (u : UnitRec) : List (PyStr × List (PyStr × PyStr)) :=
  u.methods.foldl
    (fun m mm =>
      if mm.id ≠ [] then
        dictUpsert m mm.id
          (mm.params.foldl
            (fun pm p => if p.name ≠ [] ∧ p.type_name ≠ [] then dictUpsert pm p.name p.type_name else pm)
            [])
      else m)
    []

/-- The target-type dispatch of the Python adapter's CALLS loop (lines
820-852).  `target_type_id` starts as `src_id`; the `if`/`elif` chain
covers `super`, `static`/`new`, `var`, `self`, `cls`; a record whose
kind matches no branch (such as `none`) keeps the initial `src_id`.
`none` is returned exactly where the source executes `continue`. -/
def pyCallTarget (ctx : ResolveCtx) (u : UnitRec) (c : CallRec) : Option PyStr :=
  let srcId := u.id
  let qual := pyStrip c.qualifier
  if c.qualifier_kind = pyS "super" then
    match u.extendsL with
    | [] => some srcId
    | e0 :: _ =>
      match resolveTypeName ctx e0 srcId with
      | some t => some t
      | none => some srcId
  else if c.qualifier_kind = pyS "static" ∨ c.qualifier_kind = pyS "new" then
    resolveTypeName ctx qual srcId
  else if c.qualifier_kind = pyS "var" then
    let vt1 := (dictGet (fieldTypeByName u) qual).getD []
    let vt2 :=
      if vt1 = [] then (dictGet ((dictGet (methodParamTypes u) c.src_method_id).getD []) qual).getD []
      else vt1
    if vt2 = [] then none else resolveTypeName ctx vt2 srcId
  else if c.qualifier_kind = pyS "self" then some srcId
  else if c.qualifier_kind = pyS "cls" then some srcId
  else some srcId

/-- The target-type dispatch of the Java adapter's CALLS loop (lines
557-577): `super` maps to the source type itself; `static`/`new` and
`var` as in the Python adapter; anything else (such as `none`) keeps
the initial `src_id`. -/
def javaCallTarget (ctx : ResolveCtx) (u : UnitRec) (c : CallRec) : Option PyStr :=
  let srcId := u.id
  let qual := pyStrip c.qualifier
  if c.qualifier_kind = pyS "super" then some srcId
  else if c.qualifier_kind = pyS "static" ∨ c.qualifier_kind = pyS "new" then
    resolveTypeName ctx qual srcId
  else if c.qualifier_kind = pyS "var" then
    let vt1 := (dictGet (fieldTypeByName u) qual).getD []
    let vt2 :=
      if vt1 = [] then (dictGet ((dictGet (methodParamTypes u) c.src_method_id).getD []) qual).getD []
      else vt1
    if vt2 = [] then none else resolveTypeName ctx vt2 srcId
  else some srcId

/-- One iteration of the Python adapter's CALLS loop (lines 810-858):
skip on falsy `src_method_id`/`member`, dispatch on the qualifier kind,
look up the member on the target type, and call
`graph.add_edge(src_method_id, dst_method_id, "CALLS", order=order)`. -/
def pyEmitCallForRecord (ctx : ResolveCtx) (mi : List ((PyStr × PyStr) × PyStr))
    (u : UnitRec) (c : CallRec) : Option EmitCall :=
  if c.src_method_id = [] ∨ pyStrip c.member = [] then none
  else
    match pyCallTarget ctx u c with
    | none => none
    | some tgt =>
      match dictGet mi (tgt, pyStrip c.member) with
      | none => none
      | some dstId => some ⟨c.src_method_id, dstId, pyS "CALLS", [(pyS "order", .natV c.order)]⟩

/-- One iteration of the Java adapter's CALLS loop (lines 547-583). -/
def javaEmitCallForRecord (ctx : ResolveCtx) (mi : List ((PyStr × PyStr) × PyStr))
    (u : UnitRec) (c : CallRec) : Option EmitCall :=
  if c.src_method_id = [] ∨ pyStrip c.member = [] then none
  else
    match javaCallTarget ctx u c with
    | none => none
    | some tgt =>
      match dictGet mi (tgt, pyStrip c.member) with
      | none => none
      | some dstId => some ⟨c.src_method_id, dstId, pyS "CALLS", [(pyS "order", .natV c.order)]⟩

/-- `_PRIMITIVE_TYPES` of the Python adapter. -/
def pyPrimitiveTypes : List PyStr :=
  [pyS "str", pyS "int", pyS "float", pyS "bool", pyS "bytes", pyS "complex",
   pyS "None", pyS "NoneType", pyS "Any", pyS "object"]

/-- INHERITS emission for one unit (identical loop in both adapters). -/
def inheritsEmits (ctx : ResolveCtx) (u : UnitRec) : List EmitCall :=
  u.extendsL.filterMap fun b =>
    match resolveTypeName ctx b u.id with
    | some t => if t ≠ u.id then some ⟨u.id, t, pyS "INHERITS", []⟩ else none
    | none => none

/-- IMPLEMENTS emission for one unit (identical loop in both adapters). -/
def implementsEmits (ctx : ResolveCtx) (u : UnitRec) : List EmitCall :=
  u.implementsL.filterMap fun b =>
    match resolveTypeName ctx b u.id with
    | some t => if t ≠ u.id then some ⟨u.id, t, pyS "IMPLEMENTS", []⟩ else none
    | none => none

/-- ASSOCIATES emission for one field, Python adapter (lines 766-774):
skip falsy or primitive types, resolve, skip self-loops, and call
`graph.add_edge(src_id, target, "ASSOCIATES", multiplicity=mult)`. -/
def pyAssocEmitForField (ctx : ResolveCtx) (srcId : PyStr) (f : UField) : Option EmitCall :=
  if f.element_type = [] ∨ f.element_type ∈ pyPrimitiveTypes then none
  else
    match resolveTypeName ctx f.element_type srcId with
    | some tgt =>
      if tgt ≠ srcId then
        some ⟨srcId, tgt, pyS "ASSOCIATES", [(pyS "multiplicity", attrOfOpt f.multiplicity)]⟩
      else none
    | none => none

/-- ASSOCIATES emission for one field, Java adapter (lines 500-508):
as the Python loop but with no primitive-type filter. -/
def javaAssocEmitForField (ctx : ResolveCtx) (srcId : PyStr) (f : UField) : Option EmitCall :=
  if f.element_type = [] then none
  else
    match resolveTypeName ctx f.element_type srcId with
    | some tgt =>
      if tgt ≠ srcId then
        some ⟨srcId, tgt, pyS "ASSOCIATES", [(pyS "multiplicity", attrOfOpt f.multiplicity)]⟩
      else none
    | none => none

/-- DEPENDS_ON emission for one method, Python adapter (lines 776-790):
parameter types then the return type, skipping falsy/primitive types,
unresolved references and self-loops. -/
def pyDependsEmitsForMethod (ctx : ResolveCtx) (srcId : PyStr) (m : UMethod) : List EmitCall :=
  (m.params.filterMap fun p =>
    if p.type_name = [] ∨ p.type_name ∈ pyPrimitiveTypes then none
    else
      match resolveTypeName ctx p.type_name srcId with
      | some tgt => if tgt ≠ srcId then some ⟨srcId, tgt, pyS "DEPENDS_ON", []⟩ else none
      | none => none)
  ++ (if m.return_type ≠ [] ∧ ¬m.return_type ∈ pyPrimitiveTypes then
        match resolveTypeName ctx m.return_type srcId with
        | some tgt => if tgt ≠ srcId then [⟨srcId, tgt, pyS "DEPENDS_ON", []⟩] else []
        | none => []
      else [])

/-- DEPENDS_ON emission for one method, Java adapter (lines 510-524):
no primitive-type filter. -/
def javaDependsEmitsForMethod (ctx : ResolveCtx) (srcId : PyStr) (m : UMethod) : List EmitCall :=
  (m.params.filterMap fun p =>
    if p.type_name = [] then none
    else
      match resolveTypeName ctx p.type_name srcId with
      | some tgt => if tgt ≠ srcId then some ⟨srcId, tgt, pyS "DEPENDS_ON", []⟩ else none
      | none => none)
  ++ (if m.return_type ≠ [] then
        match resolveTypeName ctx m.return_type srcId with
        | some tgt => if tgt ≠ srcId then [⟨srcId, tgt, pyS "DEPENDS_ON", []⟩] else []
        | none => []
      else [])

/-- All `add_edge` calls the Python adapter's `_add_relationship_edges`
makes for one unit, in source order. -/
def pyUnitEmits (ctx : ResolveCtx) (mi : List ((PyStr × PyStr) × PyStr)) (u : UnitRec) :
    List EmitCall :=
  inheritsEmits ctx u ++ implementsEmits ctx u
    ++ u.fields.filterMap (pyAssocEmitForField ctx u.id)
    ++ (u.methods.map (pyDependsEmitsForMethod ctx u.id)).flatten
    ++ u.calls.filterMap (pyEmitCallForRecord ctx mi u)

/-- All `add_edge` calls `PythonAdapter._add_relationship_edges` makes,
in source order. -/
def pyAddRelationshipEdges (typeNodes : List (PyStr × PyStr)) (units : List UnitRec) :
    List EmitCall :=
  (units.map (pyUnitEmits (buildResolveCtx typeNodes) (buildMethodIndex units))).flatten

/-- All `add_edge` calls the Java adapter's `_add_relationship_edges`
makes for one unit, in source order. -/
def javaUnitEmits (ctx : ResolveCtx) (mi : List ((PyStr × PyStr) × PyStr)) (u : UnitRec) :
    List EmitCall :=
  inheritsEmits ctx u ++ implementsEmits ctx u
    ++ u.fields.filterMap (javaAssocEmitForField ctx u.id)
    ++ (u.methods.map (javaDependsEmitsForMethod ctx u.id)).flatten
    ++ u.calls.filterMap (javaEmitCallForRecord ctx mi u)

/-- All `add_edge` calls `JavaAdapter._add_relationship_edges` makes,
in source order. -/
def javaAddRelationshipEdges (typeNodes : List (PyStr × PyStr)) (units : List UnitRec) :
    List EmitCall :=
  (units.map (javaUnitEmits (buildResolveCtx typeNodes) (buildMethodIndex units))).flatten

/-- The `order` keyword argument of an emitted call, when present. -/
def kwargNat (k : PyStr) (kwargs : List (PyStr × AttrVal)) : Option Nat :=
  match dictGet kwargs k with
  | some (.natV n) => some n
  | _ => none

/-- The `order=` attribute values of a list of emitted calls. -/
def ordersOf (l : List EmitCall) : List Nat :=
  l.filterMap (fun e => kwargNat (pyS "order") e.kwargs)

/-- The shape the spec claims for a list of order values: exactly
`0, 1, 2, ...` with no gaps. -/
def isSeqFromZero (l : List Nat) : Prop := l = List.range l.length

/-! ## Python AST subset and ordered call extraction

The expression subset of the `ast` module that
`_extract_ordered_calls` (python_adapter.py lines 217-298) inspects:
`Name`, `Attribute`, `Call` and other (constant-like) expressions.  A
method body is embedded as the list of its expression statements;
`ast.NodeVisitor` visits a `Call` node before its children (`func`
first, then `args`), which is the pre-order below. -/

inductive PyExpr where
  | nameE (id : PyStr)
  | attrE (value : PyExpr) (attrName : PyStr)
  | callE (func : PyExpr) (args : List PyExpr)
  | constE

/-- The body of `visit_Call`: classify one call site's `func` expression
into `(qualifier_kind, qualifier, member)`, or no record. -/
def classifyCall (f : PyExpr) : Option (PyStr × PyStr × PyStr) :=
  match f with
  | .attrE v member =>
    match v with
    | .callE (.nameE q) _ =>
      -- super().method()
      if q = pyS "super" then some (pyS "super", pyS "super", member) else none
    | .nameE q =>
      if q = pyS "self" then some (pyS "self", pyS "self", member)
      else if q = pyS "cls" then some (pyS "cls", pyS "cls", member)
      else some ((if firstIsLower q then pyS "var" else pyS "static"), q, member)
    | _ => none
  | .nameE n =>
    -- plain function / constructor call: ClassName() or func()
    some ((if firstIsUpper n then pyS "new" else pyS "none"), n, n)
  | _ => none

mutual

/-- Call-site records produced while visiting one expression, in visit
order (the record for a `Call` node precedes those of its children). -/
def candsOfExpr : PyExpr → List (PyStr × PyStr × PyStr)
  | .nameE _ => []
  | .constE => []
  | .attrE v _ => candsOfExpr v
  | .callE f args => (classifyCall f).toList ++ candsOfExpr f ++ candsOfExprs args

def candsOfExprs : List PyExpr → List (PyStr × PyStr × PyStr)
  | [] => []
  | e :: es => candsOfExpr e ++ candsOfExprs es

end

/-- One record returned by `_extract_ordered_calls`. -/
structure ExtractedCall where
  qualifier_kind : PyStr
  qualifier : PyStr
  member : PyStr
  order : Nat
deriving DecidableEq

/-- `_extract_ordered_calls(func)`: the `order_counter` is incremented
exactly when a record is appended, so the n-th appended record carries
order n. -/
def pyExtractOrderedCalls (body : List PyExpr) : List ExtractedCall :=
  (candsOfExprs body).enum.map (fun p => ⟨p.2.1, p.2.2.1, p.2.2.2, p.1⟩)

/-- `unit["calls"].append({"src_method_id": method_id, **c})` for each
extracted record (python_adapter.py lines 654-656). -/
def attachSrc (mid : PyStr) (cs : List ExtractedCall) : List CallRec :=
  cs.map (fun c => ⟨mid, c.qualifier_kind, c.qualifier, c.member, c.order⟩)

/-! ## Python class processing (`_process_class` fragments)

Decorators, class flags, the ABC-interface heuristic, the class-kind
decision, and method-node construction, from python_adapter.py. -/

/-- A decorator as `_method_flags` / `_class_flags` pattern-match it:
`ast.Name`, `ast.Attribute`, or `ast.Call` whose `func` yields a name
(`none` when the `func` is neither a `Name` nor an `Attribute`). -/
inductive PyDec where
  | decName (id : PyStr)
  | decAttr (a : PyStr)
  | decCall (fname : Option PyStr)
deriving DecidableEq

/-- A function definition as the class-processing code reads it
(`ast.FunctionDef` or `ast.AsyncFunctionDef`): its name, decorator
list, positional argument names with their unparsed annotations, body
expression statements and unparsed return annotation. -/
structure PyFunc where
  name : PyStr
  decorators : List PyDec
  args : List (PyStr × Option PyStr)
  body : List PyExpr
  returns : Option PyStr

/-- A class-body statement: a (possibly async) function definition or
any other statement. -/
inductive PyClassItem where
  | funcDef (f : PyFunc)
  | otherStmt

/-- `ast.ClassDef` as the fragments below read it; `bases` holds the
`ast.unparse(base)` strings. -/
structure PyClassDef where
  name : PyStr
  bases : List PyStr
  decorators : List PyDec
  body : List PyClassItem

/-- `_method_flags` (lines 153-169): fold the decorator list over the
three flags, returning `(is_static, is_abstract, is_classmethod)`. -/
def methodFlagsAux : List PyDec → Bool → Bool → Bool → Bool × Bool × Bool
  | [], st, ab, cm => (st, ab, cm)
  | d :: rest, st, ab, cm =>
    match d with
    | .decName id =>
      if id = pyS "staticmethod" then methodFlagsAux rest true ab cm
      else if id = pyS "classmethod" then methodFlagsAux rest st ab true
      else if id = pyS "abstractmethod" then methodFlagsAux rest st true cm
      else methodFlagsAux rest st ab cm
    | .decAttr a =>
      if a = pyS "abstractmethod" then methodFlagsAux rest st true cm
      else methodFlagsAux rest st ab cm
    | .decCall _ => methodFlagsAux rest st ab cm

def methodFlags (f : PyFunc) : Bool × Bool × Bool :=
  methodFlagsAux f.decorators false false false

/-- The name `_class_flags` compares a decorator against (`dec.id`,
`dec.attr`, or the `func`'s name for a call; `""` otherwise). -/
def decNameOf : PyDec → PyStr
  | .decName id => id
  | .decAttr a => a
  | .decCall (some f) => f
  | .decCall none => []

/-- `_class_flags` (lines 172-191): `(is_abstract, is_dataclass)` —
abstract iff some base unparses to `ABC` or `abc.ABC`, dataclass iff
some decorator names `dataclass`. -/
def classFlags (node : PyClassDef) : Bool × Bool :=
  (node.bases.any (fun b => b == pyS "ABC" || b == pyS "abc.ABC"),
   node.decorators.any (fun d => decNameOf d == pyS "dataclass"))

/-- The public (non-underscore-prefixed) function definitions of a
class body, as collected by `_is_abc_interface`. -/
def publicFuncs (node : PyClassDef) : List PyFunc :=
  (node.body.filterMap (fun it =>
    match it with
    | .funcDef f => some f
    | .otherStmt => none)).filter (fun f => !hasPre (pyS "_") f.name)

/-- `_is_abc_interface` (lines 194-210): interface-like iff the class
subclasses `ABC`/`abc.ABC`, has at least one public method, and every
public method is decorated `@abstractmethod`. -/
def isAbcInterface (node : PyClassDef) : Bool :=
  if !(classFlags node).1 then false
  else
    match publicFuncs node with
    | [] => false
    | ms => ms.all (fun m => (methodFlags m).2.1)

/-- The `kind` decision of `_process_class` (lines 505-513): interface
when interface-like; an abstract class is still rendered as `class`;
every other class is a `class`. -/
def pyClassKind (node : PyClassDef) : PyStr :=
  if isAbcInterface node then pyS "interface"
  else if (classFlags node).1 then pyS "class"
  else pyS "class"

/-- `_visibility_from_name` (lines 141-146). -/
def visibilityFromName (name : PyStr) : PyStr :=
  if hasPre (pyS "__") name ∧ ¬hasSuf (pyS "__") name = true then pyS "private"
  else if hasPre (pyS "_") name ∧ ¬hasPre (pyS "__") name = true then pyS "protected"
  else pyS "public"

/-- The Method-node construction of `_process_class` (lines 598-632):
every Python method node — constructor (`__init__`) or not — gets the id
`method:<full_name>:<name>`; `is_constructor` records whether the name
is `__init__`. -/
def pyProcessMethod (fullName : PyStr) (f : PyFunc) : MethodNode :=
  let flags := methodFlags f
  let ret := resolveAnnot f.returns
  { id := pyS "method:" ++ fullName ++ pyS ":" ++ f.name
    name := f.name
    return_type := ret.1
    raw_return_type := ret.2.1
    visibility := visibilityFromName f.name
    modifiers :=
      (if flags.1 then [pyS "static"] else [])
        ++ (if flags.2.2 then [pyS "classmethod"] else [])
        ++ (if flags.2.1 then [pyS "abstract"] else [])
    is_constructor := f.name = pyS "__init__"
    is_static := flags.1
    is_abstract := flags.2.1
    is_final := false }

/-! ## Java member processing (`_process_compilation_unit` fragments) -/

/-- `JavaAdapter._visibility_from_mods` (lines 34-42). -/
def javaVisibilityFromMods (mods : List PyStr) : PyStr :=
  if pyS "public" ∈ mods then pyS "public"
  else if pyS "private" ∈ mods then pyS "private"
  else if pyS "protected" ∈ mods then pyS "protected"
  else pyS "package"

/-- `JavaAdapter._flags_from_mods` (lines 44-49):
`(is_static, is_abstract, is_final)`. -/
def javaFlagsFromMods (mods : List PyStr) : Bool × Bool × Bool :=
  (decide (pyS "static" ∈ mods), decide (pyS "abstract" ∈ mods), decide (pyS "final" ∈ mods))

/-- Java Method-node construction (java_adapter.py lines 328-347):
id `method:<full_name>:<method_name>`, never a constructor. -/
def javaProcessMethod (fullName mname : PyStr) (mods : List PyStr)
    (retType : Option JavaType) : MethodNode :=
  let fl := javaFlagsFromMods mods
  let ret := resolveJavaTypeMult retType
  { id := pyS "method:" ++ fullName ++ pyS ":" ++ mname
    name := mname
    return_type := ret.1
    raw_return_type := ret.2.1
    visibility := javaVisibilityFromMods mods
    modifiers := mods
    is_constructor := false
    is_static := fl.1
    is_abstract := fl.2.1
    is_final := fl.2.2 }

/-- Java constructor-node construction (java_adapter.py lines 379-397):
id `ctor:<full_name>:<ctor_name>`, `is_constructor = True`, return type
`void` with raw `<constructor>`. -/
def javaProcessCtor (fullName cname : PyStr) (mods : List PyStr) : MethodNode :=
  let fl := javaFlagsFromMods mods
  { id := pyS "ctor:" ++ fullName ++ pyS ":" ++ cname
    name := cname
    return_type := pyS "void"
    raw_return_type := pyS "<constructor>"
    visibility := javaVisibilityFromMods mods
    modifiers := mods
    is_constructor := true
    is_static := fl.1
    is_abstract := fl.2.1
    is_final := fl.2.2 }

/-! ## Project-level parsing and per-file error handling

`PythonAdapter.build_cir_graph_for_files` (lines 426-448) and
`JavaAdapter.build_cir_graph_for_files` (lines 210-235), embedded at the
level of their per-file control flow.  The per-file module processing
(which may raise `ValueError` on a syntax error) is a parameter; reading
the file is an `Except` that models `open`/`read` (whose failures are
`OSError` subclasses, not `ValueError`). -/

inductive PyExc where
  | valueError (msg : PyStr)
  | otherExc (ename msg : PyStr)
deriving DecidableEq

structure FileEntry where
  path : PyStr
  read : Except PyExc PyStr

structure ErrEntry where
  file : PyStr
  error : PyStr
deriving DecidableEq

/-- The Python adapter's two handlers: `except ValueError as e` records
`str(e)`; `except Exception as e` records
`"Unexpected: {type(e).__name__}: {e}"`. -/
def pyErrText : PyExc → PyStr
  | .valueError m => m
  | .otherExc n m => pyS "Unexpected: " ++ n ++ pyS ": " ++ m

/-- `PythonAdapter.build_cir_graph_for_files`: for each file, read and
process inside `try`; both handler clauses together catch every
exception, so the loop always continues.  Returns (processed paths,
collected error entries). -/
def pyBuildForFilesErrors (parse : PyStr → Except PyExc Unit) (files : List FileEntry) :
    List PyStr × List ErrEntry :=
  files.foldl
    (fun acc fe =>
      match fe.read with
      | .error e => (acc.1, acc.2 ++ [⟨fe.path, pyErrText e⟩])
      | .ok code =>
        match parse code with
        | .ok _ => (acc.1 ++ [fe.path], acc.2)
        | .error e => (acc.1, acc.2 ++ [⟨fe.path, pyErrText e⟩]))
    ([], [])

/-- `JavaAdapter.build_cir_graph_for_files`: the loop body's only
handler is `except ValueError`; any other exception (an `OSError` from
`open`/`read` included) propagates and aborts the whole project
parse. -/
def javaBuildAux (parse : PyStr → Except PyExc Unit) :
    List FileEntry → List PyStr → List ErrEntry → Except PyExc (List PyStr × List ErrEntry)
  | [], proc, errs => .ok (proc, errs)
  | fe :: rest, proc, errs =>
    match fe.read with
    | .error (.valueError m) => javaBuildAux parse rest proc (errs ++ [⟨fe.path, m⟩])
    | .error e => .error e
    | .ok code =>
      match parse code with
      | .ok _ => javaBuildAux parse rest (proc ++ [fe.path]) errs
      | .error (.valueError m) => javaBuildAux parse rest proc (errs ++ [⟨fe.path, m⟩])
      | .error e => .error e

def javaBuildForFilesErrors (parse : PyStr → Except PyExc Unit) (files : List FileEntry) :
    Except PyExc (List PyStr × List ErrEntry) :=
  javaBuildAux parse files [] []

/-! ## Rule-based sequence diagram (`uml-gen-regex/uml_rules.py`)

`generate_sequence_diagram(cir)` and its helpers, over the CIR debug
JSON (`{nodes, edges}`).  Node `attrs` are reduced to the one attribute
the function reads (`name`, defaulting to the node id); edge `attrs` to
the numeric `order`. -/

structure CirNode where
  id : PyStr
  kind : PyStr
  nameAttr : Option PyStr
deriving DecidableEq

structure CirEdge where
  src : PyStr
  dst : PyStr
  etype : PyStr
  attrs : List (PyStr × Nat)
deriving DecidableEq

structure CirJson where
  nodes : List CirNode
  edges : List CirEdge
deriving DecidableEq

/-- `_is_dunder` (uml_rules.py lines 147-149). -/
def isDunder (s : PyStr) : Bool := hasPre (pyS "__") s && hasSuf (pyS "__") s

/-- Python `s.replace(pat, rep, 1)`: replace the leftmost occurrence. -/
def replaceFirst (pat rep : PyStr) : PyStr → PyStr
  | [] => []
  | c :: cs =>
    if hasPre pat (c :: cs) then rep ++ (c :: cs).drop pat.length
    else c :: replaceFirst pat rep cs

/-- `_safe_sequence_label` (lines 151-166): `__init__` → `<<create>>`;
other dunders get a tilde-escaped form; everything else `<name>()`. -/
def safeLabel (m : PyStr) : PyStr :=
  if m = pyS "__init__" then pyS "<<create>>"
  else if isDunder m then
    (replaceFirst (pyS "__") (pyS "~__") ((replaceFirst (pyS "__") (pyS "~__") m).reverse)).reverse
      ++ pyS "()"
  else m ++ pyS "()"

/-- `type_name_by_id`: TypeDecl nodes' display names keyed by id
(`attrs.get("name", nid)`). -/
def seqTypeNames (nodes : List CirNode) : List (PyStr × PyStr) :=
  nodes.foldl
    (fun m n => if n.kind = pyS "TypeDecl" then dictUpsert m n.id (n.nameAttr.getD n.id) else m)
    []

/-- `method_name_by_id`: Method nodes' names keyed by id. -/
def seqMethodNames (nodes : List CirNode) : List (PyStr × PyStr) :=
  nodes.foldl
    (fun m n => if n.kind = pyS "Method" then dictUpsert m n.id (n.nameAttr.getD n.id) else m)
    []

/-- `method_owner`: from HAS_METHOD edges whose endpoints are known
type/method ids (lines 429-436). -/
def seqMethodOwner (typeNames methodNames : List (PyStr × PyStr)) (edges : List CirEdge) :
    List (PyStr × PyStr) :=
  edges.foldl
    (fun m e =>
      if e.etype = pyS "HAS_METHOD" ∧ dictHas typeNames e.src ∧ dictHas methodNames e.dst then
        dictUpsert m e.dst e.src
      else m)
    []

/-- `calls_by_src_method` (lines 438-457): CALLS edges with truthy
endpoints, excluding every edge whose target method name is a dunder;
each kept edge contributes `{dst, order}` (order defaulting to 0). -/
def seqCallsBySrc (methodNames : List (PyStr × PyStr)) (edges : List CirEdge) :
    List (PyStr × List (PyStr × Nat)) :=
  edges.foldl
    (fun m e =>
      if e.etype = pyS "CALLS" then
        if e.src = [] ∨ e.dst = [] then m
        else if isDunder ((dictGet methodNames e.dst).getD []) then m
        else dictAppend m e.src (e.dst, (dictGet e.attrs (pyS "order")).getD 0)
      else m)
    []

def preferredEntryNames : List PyStr :=
  [pyS "run", pyS "start", pyS "execute", pyS "process", pyS "handle", pyS "dispatch"]

/-- Truthiness of `entry_method_id` (an optional string). -/
def optTruthy : Option PyStr → Bool
  | some s => s ≠ []
  | none => false

/-- The second phase of entry-method selection (lines 473-480): walk
the preferred names in order; each found candidate is assigned to
`entry_method_id`; the outer loop breaks as soon as the current value
is truthy. -/
def phase2Aux (methods : List (PyStr × PyStr)) (adj : List (PyStr × List (PyStr × Nat))) :
    List PyStr → Option PyStr → Option PyStr
  | [], curr => curr
  | p :: rest, curr =>
    let curr' :=
      match methods.find? (fun q => q.2 == p && dictHas adj q.1) with
      | some q => some q.1
      | none => curr
    if optTruthy curr' then curr' else phase2Aux methods adj rest curr'

/-- Entry-method selection (lines 464-488): a method named `main` with
outgoing (non-dunder-target) CALLS; else the preferred-name phase; else
the first adjacency key whose method name is not a dunder.  The second
and third phases are guarded by `is None` — a falsy-but-not-`None`
result of an earlier phase skips them. -/
def pickEntry (methods : List (PyStr × PyStr)) (adj : List (PyStr × List (PyStr × Nat))) :
    Option PyStr :=
  let e1 := (methods.find? (fun q => q.2 == pyS "main" && dictHas adj q.1)).map (·.1)
  let e2 :=
    match e1 with
    | some m => some m
    | none => phase2Aux methods adj preferredEntryNames none
  match e2 with
  | some m => some m
  | none => (adj.find? (fun kv => !isDunder ((dictGet methods kv.1).getD []))).map (·.1)

structure SeqStep where
  srcClass : PyStr
  dstClass : PyStr
  label : PyStr
deriving DecidableEq

/-- `class_of_method` (lines 510-514). -/
def classOfMethod (owner typeNames : List (PyStr × PyStr)) (mid : PyStr) : Option PyStr :=
  match dictGet owner mid with
  | none => none
  | some tid => some ((dictGet typeNames tid).getD tid)

/-- Stable insertion for `sorted(outgoing, key=lambda x: x.get("order", 0))`. -/
def insertByOrder (x : PyStr × Nat) : List (PyStr × Nat) → List (PyStr × Nat)
  | [] => [x]
  | y :: ys => if y.2 ≤ x.2 then y :: insertByOrder x ys else x :: y :: ys

def sortByOrder (l : List (PyStr × Nat)) : List (PyStr × Nat) :=
  l.foldl (fun acc x => insertByOrder x acc) []

/-- The recursive `walk(mid)` (lines 516-551): a path-local `visiting`
set breaks cycles (`mid` is discarded on return, so siblings do not see
each other's marks — here each child simply receives `mid :: visiting`);
steps are appended in traversal order.  The recursion is bounded by a
fuel argument: every recursive call adds a fresh adjacency key to
`visiting`, so any fuel exceeding the number of adjacency entries
computes the same result as the unbounded Python recursion. -/
def seqWalk (adj : List (PyStr × List (PyStr × Nat))) (methods owner typeNames : List (PyStr × PyStr)) :
    Nat → PyStr → List PyStr → List SeqStep
  | 0, _, _ => []
  | fuel + 1, mid, visiting =>
    if mid ∈ visiting then []
    else
      match classOfMethod owner typeNames mid with
      | none => []
      | some srcClass =>
        if srcClass = [] then []
        else
          (sortByOrder ((dictGet adj mid).getD [])).foldl
            (fun acc item =>
              if item.1 = [] then acc
              else if isDunder ((dictGet methods item.1).getD []) then acc
              else
                match classOfMethod owner typeNames item.1 with
                | none => acc
                | some dstClass =>
                  if dstClass = [] then acc
                  else
                    acc ++ [⟨srcClass, dstClass, safeLabel ((dictGet methods item.1).getD [])⟩]
                      ++ seqWalk adj methods owner typeNames fuel item.1 (mid :: visiting))
            []

/-- Lexicographic (code-point) order on Python strings, for `sorted`. -/
def strLe : PyStr → PyStr → Bool
  | [], _ => true
  | _ :: _, [] => false
  | a :: s1, b :: s2 =>
    if a.toNat < b.toNat then true
    else if b.toNat < a.toNat then false
    else strLe s1 s2

def insertStr (x : PyStr) : List PyStr → List PyStr
  | [] => [x]
  | y :: ys => if strLe y x then y :: insertStr x ys else x :: y :: ys

def sortStrs (l : List PyStr) : List PyStr :=
  l.foldl (fun acc x => insertStr x acc) []

/-- The `participants` set: both endpoints of every step are added
exactly when the step is (lines 545-547), so the set is the step
endpoints. -/
def addUnique (l : List PyStr) (x : PyStr) : List PyStr :=
  if x ∈ l then l else l ++ [x]

def stepParticipants (steps : List SeqStep) : List PyStr :=
  steps.foldl (fun acc st => addUnique (addUnique acc st.srcClass) st.dstClass) []

def seqNoteN1 : PyStr :=
  pyS "note \"No public method call chains found.\\nSequence diagram requires non-constructor\\nmethods that call other class methods.\" as N1"

def seqNoteN2 : PyStr :=
  pyS "note \"Method call chains exist but could not be\\nmapped to sequence steps. This may happen when\\nall calls are to constructors or internal helpers.\" as N2"

/-- `generate_sequence_diagram(cir)` (lines 402-572). -/
def generateSequenceDiagram (cir : CirJson) : PyStr :=
  let typeNames := seqTypeNames cir.nodes
  let methodNames := seqMethodNames cir.nodes
  let owner := seqMethodOwner typeNames methodNames cir.edges
  let adj := seqCallsBySrc methodNames cir.edges
  let entry := pickEntry methodNames adj
  if optTruthy entry = false then
    joinNl [pyS "@startuml", [], seqNoteN1, pyS "@enduml"]
  else
    let steps := seqWalk adj methodNames owner typeNames (adj.length + 1) ((entry).getD []) []
    let parts := stepParticipants steps
    if parts = [] ∨ steps = [] then
      joinNl [pyS "@startuml", [], seqNoteN2, pyS "@enduml"]
    else
      joinNl ([pyS "@startuml", []]
        ++ (sortStrs parts).map (fun p => pyS "participant " ++ p)
        ++ [[]]
        ++ steps.map (fun st => st.srcClass ++ pyS " -> " ++ st.dstClass ++ pyS " : " ++ st.label)
        ++ [pyS "@enduml"])

/-! ## Concrete inputs used by the claim theorems below -/

/-- The two type declarations of the repository's own adapter test
(`tests/test_java_adapter_relations.py`): `class Item {}` and `class
Order` with fields `List<Item> items` and `Item mainItem` and the
constructor `Order(List<Item> items, Item mainItem)`, as the Java
adapter's `_process_compilation_unit` records them. -/
def tjTypeNodes : List (PyStr × PyStr) :=
  [(pyS "Item", pyS "type:Item"), (pyS "Order", pyS "type:Order")]

def tjItemUnit : UnitRec :=
  { id := pyS "type:Item", short_name := pyS "Item", full_name := pyS "Item"
    fields := [], methods := [], extendsL := [], implementsL := [], calls := [] }

def tjOrderUnit : UnitRec :=
  { id := pyS "type:Order", short_name := pyS "Order", full_name := pyS "Order"
    fields :=
      [⟨pyS "field:Order:items", pyS "items", pyS "Item", pyS "List<Item>", some (pyS "1..*")⟩,
       ⟨pyS "field:Order:mainItem", pyS "mainItem", pyS "Item", pyS "Item", some (pyS "1")⟩]
    methods :=
      [⟨pyS "ctor:Order:Order", pyS "Order", pyS "void",
        [⟨pyS "param:Order:Order:items", pyS "items", pyS "Item"⟩,
         ⟨pyS "param:Order:Order:mainItem", pyS "mainItem", pyS "Item"⟩]⟩]
    extendsL := [], implementsL := [], calls := [] }

def tjUnits : List UnitRec := [tjItemUnit, tjOrderUnit]

/-- Body of `def run(self): self.a(); self.x(); self.b()` where `x` is
not defined on the class — the middle extracted record will not
resolve. -/
def gapBody : List PyExpr :=
  [.callE (.attrE (.nameE (pyS "self")) (pyS "a")) [],
   .callE (.attrE (.nameE (pyS "self")) (pyS "x")) [],
   .callE (.attrE (.nameE (pyS "self")) (pyS "b")) []]

def gapTypeNodes : List (PyStr × PyStr) := [(pyS "m.C", pyS "type:m.C")]

def gapUnit : UnitRec :=
  { id := pyS "type:m.C", short_name := pyS "C", full_name := pyS "m.C"
    fields := []
    methods :=
      [⟨pyS "method:m.C:run", pyS "run", pyS "Any", []⟩,
       ⟨pyS "method:m.C:a", pyS "a", pyS "Any", []⟩,
       ⟨pyS "method:m.C:b", pyS "b", pyS "Any", []⟩]
    extendsL := [], implementsL := []
    calls := attachSrc (pyS "method:m.C:run") (pyExtractOrderedCalls gapBody) }

def gapCtx : ResolveCtx := buildResolveCtx gapTypeNodes

def gapMi : List ((PyStr × PyStr) × PyStr) := buildMethodIndex [gapUnit]

/-- Body of `def run(self): helper()` — an unqualified call, extracted
with qualifier kind `none`. -/
def noneBody : List PyExpr := [.callE (.nameE (pyS "helper")) []]

def noneUnit : UnitRec :=
  { id := pyS "type:m.C", short_name := pyS "C", full_name := pyS "m.C"
    fields := []
    methods :=
      [⟨pyS "method:m.C:run", pyS "run", pyS "Any", []⟩,
       ⟨pyS "method:m.C:helper", pyS "helper", pyS "Any", []⟩]
    extendsL := [], implementsL := []
    calls := attachSrc (pyS "method:m.C:run") (pyExtractOrderedCalls noneBody) }

def noneCtx : ResolveCtx := buildResolveCtx gapTypeNodes

def noneMi : List ((PyStr × PyStr) × PyStr) := buildMethodIndex [noneUnit]

/-- A project with one unreadable file followed by one good file. -/
def ioParse : PyStr → Except PyExc Unit := fun _ => .ok ()

def ioFiles : List FileEntry :=
  [⟨pyS "Missing.java", .error (.otherExc (pyS "FileNotFoundError")
      (pyS "[Errno 2] No such file or directory: 'Missing.java'"))⟩,
   ⟨pyS "Good.java", .ok (pyS "class A {}")⟩]

/-- CIR for: class `A` with `main` calling `B.__init__` (order 0) and
`B.go` (order 1); class `B` owning `__init__` and `go`. -/
def ctorCallCir : CirJson :=
  { nodes :=
      [⟨pyS "type:A", pyS "TypeDecl", some (pyS "A")⟩,
       ⟨pyS "type:B", pyS "TypeDecl", some (pyS "B")⟩,
       ⟨pyS "method:A:main", pyS "Method", some (pyS "main")⟩,
       ⟨pyS "method:B:__init__", pyS "Method", some (pyS "__init__")⟩,
       ⟨pyS "method:B:go", pyS "Method", some (pyS "go")⟩]
    edges :=
      [⟨pyS "type:A", pyS "method:A:main", pyS "HAS_METHOD", []⟩,
       ⟨pyS "type:B", pyS "method:B:__init__", pyS "HAS_METHOD", []⟩,
       ⟨pyS "type:B", pyS "method:B:go", pyS "HAS_METHOD", []⟩,
       ⟨pyS "method:A:main", pyS "method:B:__init__", pyS "CALLS", [(pyS "order", 0)]⟩,
       ⟨pyS "method:A:main", pyS "method:B:go", pyS "CALLS", [(pyS "order", 1)]⟩] }

def ctorCallExpected : PyStr :=
  joinNl [pyS "@startuml", [], pyS "participant A", pyS "participant B", [],
          pyS "A -> B : go()", pyS "@enduml"]

/-- Substring test (used only to state properties of emitted text). -/
def containsSeq (pat : PyStr) : PyStr → Bool
  | [] => hasPre pat []
  | c :: cs => hasPre pat (c :: cs) || containsSeq pat cs

/-- Type nodes for the disambiguation counterexample: a default-package
`X` (fully-qualified name equal to its short name, as the Java adapter
produces for a file without a `package` declaration), `q.X`, and the
source type `p.Y`. -/
def dupTypeNodes : List (PyStr × PyStr) :=
  [(pyS "X", pyS "type:X"), (pyS "q.X", pyS "type:q.X"), (pyS "p.Y", pyS "type:p.Y")]

def dupCtx : ResolveCtx := buildResolveCtx dupTypeNodes

def dupField : UField := ⟨pyS "field:p.Y:x", pyS "x", pyS "X", pyS "X", some (pyS "1")⟩

/-- Type nodes for the disambiguation witness: `p.X`, `q.X` and source
`p.Y` — the same-package rule picks `p.X`. -/
def dis2TypeNodes : List (PyStr × PyStr) :=
  [(pyS "p.X", pyS "type:p.X"), (pyS "q.X", pyS "type:q.X"), (pyS "p.Y", pyS "type:p.Y")]

/-- `def __init__(self): ...` as a `PyFunc`. -/
def initFunc : PyFunc := ⟨pyS "__init__", [], [], [], none⟩

/-- CIR for the sequence-diagram entry witness: `main` with an outgoing
call beats `run` with an outgoing call. -/
def entryCir : CirJson :=
  { nodes :=
      [⟨pyS "type:A", pyS "TypeDecl", some (pyS "A")⟩,
       ⟨pyS "method:A:run", pyS "Method", some (pyS "run")⟩,
       ⟨pyS "method:A:main", pyS "Method", some (pyS "main")⟩,
       ⟨pyS "method:A:go", pyS "Method", some (pyS "go")⟩]
    edges :=
      [⟨pyS "type:A", pyS "method:A:run", pyS "HAS_METHOD", []⟩,
       ⟨pyS "type:A", pyS "method:A:main", pyS "HAS_METHOD", []⟩,
       ⟨pyS "type:A", pyS "method:A:go", pyS "HAS_METHOD", []⟩,
       ⟨pyS "method:A:run", pyS "method:A:go", pyS "CALLS", [(pyS "order", 0)]⟩,
       ⟨pyS "method:A:main", pyS "method:A:go", pyS "CALLS", [(pyS "order", 0)]⟩] }

/-- `class Shape(ABC): def draw(self): ... (abstract); def _hidden(self): ...` -/
def abcClassNode : PyClassDef :=
  { name := pyS "Shape", bases := [pyS "ABC"], decorators := []
    body := [.funcDef ⟨pyS "draw", [.decName (pyS "abstractmethod")], [], [], none⟩,
             .funcDef ⟨pyS "_hidden", [], [], [], none⟩] }

/-- `class Box(ABC):` with one concrete public method. -/
def plainClassNode : PyClassDef :=
  { name := pyS "Box", bases := [pyS "ABC"], decorators := []
    body := [.funcDef ⟨pyS "area", [], [], [], none⟩] }

/-! ## Helper lemmas -/

theorem resolveAnnotStr_opt_case (s inner : PyStr)
    (hstrip : pyStrip s = s)
    (hdict : (dictPres.any fun q => hasPre q s && hasSuf (pyS "]") s) = false)
    (hopt : (hasPre (pyS "Optional[") s && hasSuf (pyS "]") s) = true)
    (hinner : (s.drop 9).dropLast = inner) :
    resolveAnnotStr s = (shortBase (pyStrip inner), s, some (pyS "0..1")) := by
  unfold resolveAnnotStr
  simp only [hstrip]
  rw [hdict, hopt]
  simp [hinner]

theorem resolveAnnotStr_coll_case (s inner : PyStr) (p : PyStr)
    (hstrip : pyStrip s = s)
    (hdict : (dictPres.any fun q => hasPre q s && hasSuf (pyS "]") s) = false)
    (hopt : (hasPre (pyS "Optional[") s && hasSuf (pyS "]") s) = false)
    (huni : (hasPre (pyS "Union[") s && hasSuf (pyS "]") s) = false)
    (hfind : collectionPres.find? (fun q => hasPre q s && hasSuf (pyS "]") s) = some p)
    (hinner : (s.drop p.length).dropLast = inner) :
    resolveAnnotStr s =
      (shortBase (pyStrip ((pySplitChar ',' (pyStrip inner)).headD [])), s, some (pyS "1..*")) := by
  unfold resolveAnnotStr
  simp only [hstrip]
  rw [hdict, hopt, huni, hfind]
  simp [hinner]

/-! ## Claim theorems -/

/-- Claim C1 (code_bug evidence).  The claim says the CIR graph supports
labelled edges with optional attributes and that the resolver attaches
`multiplicity` to ASSOCIATES edges and `order` to CALLS edges.  The
resolvers do attempt exactly that — the first `add_edge` call for the
repository's own test input (`Order`/`Item`) passes
`multiplicity="1..*"` — but `CIRGraph.add_edge` accepts no keyword
attributes, so the call raises `TypeError` and no attribute-carrying
edge can ever be added. -/
theorem C1_graph_attrs_type_error :
    (javaAddRelationshipEdges tjTypeNodes tjUnits).head? =
      some ⟨pyS "type:Order", pyS "type:Item", pyS "ASSOCIATES",
            [(pyS "multiplicity", .strV (pyS "1..*"))]⟩
    ∧ runAddEdgeCalls emptyCIRGraph (javaAddRelationshipEdges tjTypeNodes tjUnits) =
        .error typeErrMsg :=
  ⟨rfl, rfl⟩

/-- Claim C4 (code_bug evidence).  A project parse over a file list
whose first file cannot be read: the Java adapter's loop catches only
`ValueError`, so the read failure escapes as an exception and the whole
project parse aborts (the good file is never processed), while the
Python adapter — whose loop also catches `Exception` — records the
failure as a `{file, error}` entry and proceeds. -/
theorem C4_java_read_error_aborts :
    javaBuildForFilesErrors ioParse ioFiles =
      .error (.otherExc (pyS "FileNotFoundError")
        (pyS "[Errno 2] No such file or directory: 'Missing.java'"))
    ∧ pyBuildForFilesErrors ioParse ioFiles =
        ([pyS "Good.java"],
         [⟨pyS "Missing.java",
           pyS "Unexpected: FileNotFoundError: [Errno 2] No such file or directory: 'Missing.java'"⟩]) :=
  ⟨rfl, rfl⟩

/-- Claim C7 counterexample.  The claim states that type-annotation
resolution (citing both adapters) maps an optional wrapper
`Optional[T]` to multiplicity `0..1`; the Java adapter's
`_resolve_type_name_and_multiplicity` maps `Optional<Item>` to
multiplicity `1..*` (any generic with a named first argument is treated
as one-to-many). -/
theorem C7_java_optional_cex :
    resolveJavaTypeMult (some ⟨pyS "Optional", [some (pyS "Item")], false⟩) =
      (pyS "Item", pyS "Optional<Item>", some (pyS "1..*"))
    ∧ pyS "1..*" ≠ pyS "0..1" := by
  decide

/-- Claim C7 (amended): in the Python adapter, `Optional[T]` resolves to
the short name of `T` with multiplicity `0..1` (and a union with null
likewise, witnessed on concrete unions), and a
list/set/sequence/deque/tuple generic resolves to the short name of its
first type argument with multiplicity `1..*`, the surface text kept as
the raw type; the Java adapter maps every generic with a named first
type argument — `Optional<T>` included — to that argument's name with
multiplicity `1..*`. -/
theorem C7_multiplicity_rules :
    (∀ s t, s = pyS "Optional[" ++ t ++ pyS "]" → pyStrip s = s → hasSuf (pyS "]") s = true →
      resolveAnnotStr s = (shortBase (pyStrip t), s, some (pyS "0..1")))
    ∧ resolveAnnotStr (pyS "Union[Item, None]") =
        (pyS "Item", pyS "Union[Item, None]", some (pyS "0..1"))
    ∧ resolveAnnotStr (pyS "Union[None, a.b.Item]") =
        (pyS "Item", pyS "Union[None, a.b.Item]", some (pyS "0..1"))
    ∧ (∀ p t s, p ∈ collectionPres → s = p ++ t ++ pyS "]" → pyStrip s = s →
        hasSuf (pyS "]") s = true →
        resolveAnnotStr s =
          (shortBase (pyStrip ((pySplitChar ',' (pyStrip t)).headD [])), s, some (pyS "1..*")))
    ∧ (∀ inner rest, resolveJavaTypeMult (some ⟨pyS "Optional", some inner :: rest, false⟩) =
        (inner, pyS "Optional" ++ pyS "<" ++ inner ++ pyS ">", some (pyS "1..*")))
    ∧ (∀ inner rest, resolveJavaTypeMult (some ⟨pyS "List", some inner :: rest, false⟩) =
        (inner, pyS "List" ++ pyS "<" ++ inner ++ pyS ">", some (pyS "1..*"))) := by
  refine ⟨?_, by decide, by decide, ?_, fun inner rest => rfl, fun inner rest => rfl⟩
  · intro s t hs hstrip hsuf
    subst hs
    refine resolveAnnotStr_opt_case _ t hstrip (by rfl) ?_ ?_
    · rw [hsuf]; rfl
    · rw [show pyS "Optional[" ++ t ++ pyS "]" = pyS "Optional[" ++ (t ++ [']']) by simp [pyS],
          show (pyS "Optional[" ++ (t ++ [']'])).drop 9 = t ++ [']'] from rfl]
      simp
  · intro p t s hp hs hstrip hsuf
    fin_cases hp <;>
      (subst hs
       refine resolveAnnotStr_coll_case _ t _ hstrip (by rfl) (by rfl) (by rfl)
         (by simp only [hsuf, Bool.and_true]; rfl) ?_
       rw [List.append_assoc, List.drop_left]
       simp [pyS])

/-- Witness for C7: the amended rules applied at concrete annotations. -/
theorem C7_rules_witness :
    resolveAnnotStr (pyS "Optional[app.Item]") =
      (pyS "Item", pyS "Optional[app.Item]", some (pyS "0..1"))
    ∧ resolveAnnotStr (pyS "List[Item]") = (pyS "Item", pyS "List[Item]", some (pyS "1..*")) := by
  constructor
  · have h := C7_multiplicity_rules.1 (pyS "Optional[app.Item]") (pyS "app.Item")
      (by decide) (by decide) (by decide)
    rw [h]; decide
  · have h := C7_multiplicity_rules.2.2.2.1 (pyS "List[") (pyS "Item") (pyS "List[Item]")
      (by decide) (by decide) (by decide) (by decide)
    rw [h]; decide

/-- Claim C8 counterexample.  In the Python adapter every Method node —
`__init__` included — gets the `method:` id: the constructor of
`shop.order.Order` is a Method node with `is_constructor = True` whose
id is `method:shop.order.Order:__init__`, not a `ctor:` id. -/
theorem C8_python_ctor_id_cex :
    (pyProcessMethod (pyS "shop.order.Order") initFunc).is_constructor = true
    ∧ (pyProcessMethod (pyS "shop.order.Order") initFunc).id =
        pyS "method:shop.order.Order:__init__"
    ∧ hasPre (pyS "ctor:") (pyProcessMethod (pyS "shop.order.Order") initFunc).id = false := by
  decide

/-- Claim C8 (amended): the Java adapter gives non-constructor methods
`method:<type-fqn>:<name>` ids and constructors `ctor:<type-fqn>:<name>`
ids; the Python adapter gives every method — including `__init__`
constructors, flagged via `is_constructor` — a `method:` id. -/
theorem C8_method_id_shapes :
    (∀ full name mods, (javaProcessCtor full name mods).id = pyS "ctor:" ++ full ++ pyS ":" ++ name
      ∧ (javaProcessCtor full name mods).is_constructor = true)
    ∧ (∀ full name mods ret,
        (javaProcessMethod full name mods ret).id = pyS "method:" ++ full ++ pyS ":" ++ name
        ∧ (javaProcessMethod full name mods ret).is_constructor = false)
    ∧ (∀ full f, (pyProcessMethod full f).id = pyS "method:" ++ full ++ pyS ":" ++ f.name
        ∧ ((pyProcessMethod full f).is_constructor = true ↔ f.name = pyS "__init__")) := by
  refine ⟨fun full name mods => ⟨rfl, rfl⟩, fun full name mods ret => ⟨rfl, rfl⟩,
    fun full f => ⟨rfl, ?_⟩⟩
  simp [pyProcessMethod]

theorem pyEmit_kwargs {ctx : ResolveCtx} {mi : List ((PyStr × PyStr) × PyStr)}
    {u : UnitRec} {c : CallRec} {e : EmitCall}
    (h : pyEmitCallForRecord ctx mi u c = some e) :
    e.kwargs = [(pyS "order", AttrVal.natV c.order)] := by
  unfold pyEmitCallForRecord at h
  split at h
  · simp at h
  · split at h
    · simp at h
    · split at h
      · simp at h
      · simp only [Option.some.injEq] at h
        subst h
        rfl

theorem ordersOf_calls_sublist (ctx : ResolveCtx) (mi : List ((PyStr × PyStr) × PyStr))
    (u : UnitRec) :
    ∀ l : List CallRec,
      (ordersOf (l.filterMap (pyEmitCallForRecord ctx mi u))).Sublist (l.map CallRec.order)
  | [] => by simp [ordersOf]
  | c :: cs => by
    rw [List.map_cons, List.filterMap_cons]
    cases hf : pyEmitCallForRecord ctx mi u c with
    | none => exact (ordersOf_calls_sublist ctx mi u cs).cons _
    | some e =>
      have hk : kwargNat (pyS "order") e.kwargs = some c.order := by
        rw [pyEmit_kwargs hf]; rfl
      have ho : ordersOf (e :: cs.filterMap (pyEmitCallForRecord ctx mi u)) =
          c.order :: ordersOf (cs.filterMap (pyEmitCallForRecord ctx mi u)) := by
        unfold ordersOf
        rw [List.filterMap_cons, hk]
      rw [ho]
      exact (ordersOf_calls_sublist ctx mi u cs).cons₂ _

/-- Claim C2 counterexample.  For `def run(self): self.a(); self.x();
self.b()` with `x` undefined on the class, extraction yields orders
0, 1, 2 but the resolver drops the unresolvable middle record and
keeps the original order values on the two CALLS edges it adds: their
orders are `[0, 2]` — strictly increasing but with a gap, not
`0, 1, 2, ...`. -/
theorem C2_order_gap_cex :
    (pyAddRelationshipEdges gapTypeNodes [gapUnit]).map EmitCall.etype =
      [pyS "CALLS", pyS "CALLS"]
    ∧ ordersOf (pyAddRelationshipEdges gapTypeNodes [gapUnit]) = [0, 2]
    ∧ ¬isSeqFromZero (ordersOf (pyAddRelationshipEdges gapTypeNodes [gapUnit])) := by
  refine ⟨by decide, by decide, fun hcontra => ?_⟩
  unfold isSeqFromZero at hcontra
  rw [show ordersOf (pyAddRelationshipEdges gapTypeNodes [gapUnit]) = [0, 2] from by decide]
    at hcontra
  exact absurd hcontra (by decide)

/-- Claim C2 (amended): the `order` attributes on the CALLS edges the
Python resolver emits for a method's call records preserve the original
extraction orders, so whenever the extracted records of one method body
carry strictly increasing orders (extraction numbers them 0, 1, 2, ...),
the emitted orders are strictly increasing as well — but records that
fail to resolve are skipped without renumbering, so the emitted orders
form a strictly increasing subsequence of `0, 1, 2, ...` that may have
gaps. -/
theorem C2_orders_strictly_increasing (ctx : ResolveCtx) (mi : List ((PyStr × PyStr) × PyStr))
    (u : UnitRec) (h : (u.calls.map CallRec.order).Pairwise (· < ·)) :
    (ordersOf (u.calls.filterMap (pyEmitCallForRecord ctx mi u))).Pairwise (· < ·) :=
  List.Pairwise.sublist (ordersOf_calls_sublist ctx mi u u.calls) h

/-- Witness for C2: the gap example's extracted orders are strictly
increasing and so are its emitted orders. -/
theorem C2_orders_witness :
    (gapUnit.calls.map CallRec.order).Pairwise (· < ·)
    ∧ (ordersOf (gapUnit.calls.filterMap (pyEmitCallForRecord gapCtx gapMi gapUnit))).Pairwise
        (· < ·) :=
  ⟨by decide, C2_orders_strictly_increasing gapCtx gapMi gapUnit (by decide)⟩

/-- Claim C3 counterexample.  `def run(self): helper()` extracts one
record with qualifier kind `none`; both adapters fall through to the
source type and, because the class has a method `helper`, emit a CALLS
edge for it — the record is not skipped. -/
theorem C3_none_call_emitted_cex :
    noneUnit.calls.map CallRec.qualifier_kind = [pyS "none"]
    ∧ noneUnit.calls.filterMap (pyEmitCallForRecord noneCtx noneMi noneUnit) =
        [⟨pyS "method:m.C:run", pyS "method:m.C:helper", pyS "CALLS",
          [(pyS "order", .natV 0)]⟩]
    ∧ noneUnit.calls.filterMap (javaEmitCallForRecord noneCtx noneMi noneUnit) =
        [⟨pyS "method:m.C:run", pyS "method:m.C:helper", pyS "CALLS",
          [(pyS "order", .natV 0)]⟩] := by
  decide

/-- Claim C3 (amended): a call record with qualifier kind `none` is not
skipped; it falls through the qualifier dispatch with the source type as
the target, so (in both adapters, which behave identically on it) a
CALLS edge is emitted precisely when the source type has a method named
`member`. -/
theorem C3_none_resolved_on_source (ctx : ResolveCtx) (mi : List ((PyStr × PyStr) × PyStr))
    (u : UnitRec) (c : CallRec) (h : c.qualifier_kind = pyS "none")
    (hsrc : c.src_method_id ≠ []) (hmem : pyStrip c.member ≠ []) :
    pyEmitCallForRecord ctx mi u c =
      (match dictGet mi (u.id, pyStrip c.member) with
       | none => none
       | some dstId => some ⟨c.src_method_id, dstId, pyS "CALLS", [(pyS "order", .natV c.order)]⟩)
    ∧ javaEmitCallForRecord ctx mi u c = pyEmitCallForRecord ctx mi u c := by
  have htp : pyCallTarget ctx u c = some u.id := by
    unfold pyCallTarget
    simp only [h]
    rfl
  have htj : javaCallTarget ctx u c = some u.id := by
    unfold javaCallTarget
    simp only [h]
    rfl
  have hcond : ¬(c.src_method_id = [] ∨ pyStrip c.member = []) := by
    simp [hsrc, hmem]
  constructor
  · unfold pyEmitCallForRecord
    rw [if_neg hcond, htp]
  · unfold javaEmitCallForRecord pyEmitCallForRecord
    rw [if_neg hcond, if_neg hcond, htp, htj]

/-- Witness for C3: the amended behaviour evaluated on the concrete
`helper()` record. -/
theorem C3_none_witness :
    pyEmitCallForRecord noneCtx noneMi noneUnit
        ⟨pyS "method:m.C:run", pyS "none", pyS "helper", pyS "helper", 0⟩ =
      some ⟨pyS "method:m.C:run", pyS "method:m.C:helper", pyS "CALLS",
        [(pyS "order", .natV 0)]⟩ := by
  have h := (C3_none_resolved_on_source noneCtx noneMi noneUnit
    ⟨pyS "method:m.C:run", pyS "none", pyS "helper", pyS "helper", 0⟩
    (by decide) (by decide) (by decide)).1
  rw [h]
  decide

/-- Claim C6 counterexample.  With a default-package `X` (whose
fully-qualified name is the bare `X`, as the Java adapter produces for
a file with no `package` declaration), `q.X`, and the source type
`p.Y`: two candidate TypeDecls share the short name `X` and none of
them is in the source's package `p`, yet the resolver's step 1 matches
the name against `full_to_id` and returns the default-package `X`, and
an ASSOCIATES edge is emitted for a `p.Y` field of type `X` — the
claim requires that no edge be emitted here. -/
theorem C6_fqn_bypass_cex :
    dictGet dupCtx.shortToIds (pyS "X") = some [pyS "type:X", pyS "type:q.X"]
    ∧ samePkgFilter dupCtx [pyS "type:X", pyS "type:q.X"] (pyS "type:p.Y") = []
    ∧ resolveTypeName dupCtx (pyS "X") (pyS "type:p.Y") = some (pyS "type:X")
    ∧ javaAssocEmitForField dupCtx (pyS "type:p.Y") dupField =
        some ⟨pyS "type:p.Y", pyS "type:X", pyS "ASSOCIATES",
          [(pyS "multiplicity", .strV (pyS "1"))]⟩ := by
  decide

/-- Claim C6 (amended): provided the reference does not exactly match a
known fully-qualified name, a short name shared by two or more
candidate TypeDecls is restricted to the candidates whose package
equals the source type's package — the unique survivor is used, and
otherwise resolution fails, in which case no ASSOCIATES edge is emitted
for a field with that type (either adapter). -/
theorem C6_same_package_rule (typeNodes : List (PyStr × PyStr)) (tname srcId : PyStr)
    (cands : List PyStr)
    (hfull : dictGet (buildResolveCtx typeNodes).fullToId tname = none)
    (hc : dictGet (buildResolveCtx typeNodes).shortToIds tname = some cands)
    (h2 : 2 ≤ cands.length) :
    (∀ c, samePkgFilter (buildResolveCtx typeNodes) cands srcId = [c] →
        resolveTypeName (buildResolveCtx typeNodes) tname srcId = some c)
    ∧ ((samePkgFilter (buildResolveCtx typeNodes) cands srcId).length ≠ 1 →
        resolveTypeName (buildResolveCtx typeNodes) tname srcId = none)
    ∧ (resolveTypeName (buildResolveCtx typeNodes) tname srcId = none →
        ∀ f : UField, f.element_type = tname →
          pyAssocEmitForField (buildResolveCtx typeNodes) srcId f = none
          ∧ javaAssocEmitForField (buildResolveCtx typeNodes) srcId f = none) := by
  rcases cands with _ | ⟨c1, _ | ⟨c2, rest⟩⟩
  · simp at h2
  · simp at h2
  · refine ⟨?_, ?_, ?_⟩
    · intro c hone
      unfold resolveTypeName
      rw [hfull, hc]
      simp only [hone]
      rfl
    · intro hne
      unfold resolveTypeName
      rw [hfull, hc]
      simp only [if_neg hne]
    · intro hnone f hf
      constructor
      · unfold pyAssocEmitForField
        rw [hf]
        split
        · rfl
        · rw [hnone]
      · unfold javaAssocEmitForField
        rw [hf]
        split
        · rfl
        · rw [hnone]

/-- Witness for C6: with candidates `p.X` and `q.X` and source `p.Y`,
the same-package rule resolves `X` to `p.X`. -/
theorem C6_package_witness :
    resolveTypeName (buildResolveCtx dis2TypeNodes) (pyS "X") (pyS "type:p.Y") =
      some (pyS "type:p.X") :=
  (C6_same_package_rule dis2TypeNodes (pyS "X") (pyS "type:p.Y")
    [pyS "type:p.X", pyS "type:q.X"] (by decide) (by decide) (by decide)).1
    (pyS "type:p.X") (by decide)

/-- Claim C5 counterexample.  `main` (class `A`) calls `B.__init__`
(order 0) and `B.go` (order 1).  The emitter drops the CALLS edge whose
target is `__init__` when building the adjacency, so the traversal from
`main` records a step only for `go` — the constructor call yields no
step at all, and no `<<create>>` label appears anywhere in the
output. -/
theorem C5_ctor_call_no_step_cex :
    (⟨pyS "method:A:main", pyS "method:B:__init__", pyS "CALLS",
      [(pyS "order", 0)]⟩ : CirEdge) ∈ ctorCallCir.edges
    ∧ generateSequenceDiagram ctorCallCir = ctorCallExpected
    ∧ containsSeq (pyS "<<create>>") (generateSequenceDiagram ctorCallCir) = false
    ∧ containsSeq (pyS "__init__") (generateSequenceDiagram ctorCallCir) = false := by
  decide

theorem safeLabel_of_not_dunder (n : PyStr) (h : isDunder n = false) :
    safeLabel n = n ++ pyS "()" := by
  have h1 : ¬(n = pyS "__init__") := by
    intro he
    rw [he] at h
    exact absurd h (by decide)
  unfold safeLabel
  rw [if_neg h1, if_neg (by simp [h])]

theorem foldl_mem_of_closed {α β : Type} (P : β → Prop) (f : List β → α → List β)
    (hf : ∀ acc x, (∀ st, st ∈ acc → P st) → ∀ st, st ∈ f acc x → P st) :
    ∀ (l : List α) (acc : List β), (∀ st, st ∈ acc → P st) →
      ∀ st, st ∈ l.foldl f acc → P st
  | [], _, hacc, st, hst => hacc st hst
  | x :: xs, acc, hacc, st, hst =>
    foldl_mem_of_closed P f hf xs (f acc x) (hf acc x hacc) st hst

theorem dictAppend_forall {κ α : Type} [DecidableEq κ] (Q : α → Prop)
    (k : κ) (v : α) (hv : Q v) :
    ∀ m : List (κ × List α), (∀ e, e ∈ m → ∀ x, x ∈ e.2 → Q x) →
      ∀ e, e ∈ dictAppend m k v → ∀ x, x ∈ e.2 → Q x
  | [], _, e, he, x, hx => by
    simp [dictAppend] at he
    subst he
    simp at hx
    subst hx
    exact hv
  | (k', vs) :: rest, hm, e, he, x, hx => by
    unfold dictAppend at he
    by_cases hk : k' = k
    · rw [if_pos hk] at he
      rcases List.mem_cons.1 he with he1 | he2
      · subst he1
        rcases List.mem_append.1 hx with hx1 | hx2
        · exact hm (k', vs) (List.mem_cons_self _ _) x hx1
        · simp at hx2
          subst hx2
          exact hv
      · exact hm e (List.mem_cons_of_mem _ he2) x hx
    · rw [if_neg hk] at he
      rcases List.mem_cons.1 he with he1 | he2
      · subst he1
        exact hm (k', vs) (List.mem_cons_self _ _) x hx
      · exact dictAppend_forall Q k v hv rest
          (fun e' he' => hm e' (List.mem_cons_of_mem _ he')) e he2 x hx

theorem seqCallsBySrc_no_dunder (methodNames : List (PyStr × PyStr)) (edges : List CirEdge) :
    ∀ e, e ∈ seqCallsBySrc methodNames edges →
      ∀ x, x ∈ e.2 → isDunder ((dictGet methodNames x.1).getD []) = false := by
  unfold seqCallsBySrc
  refine foldl_mem_of_closed
    (fun ent : PyStr × List (PyStr × Nat) =>
      ∀ x, x ∈ ent.2 → isDunder ((dictGet methodNames x.1).getD []) = false)
    _ ?_ edges [] (by simp)
  intro acc ed hacc ent hent
  by_cases h1 : ed.etype = pyS "CALLS"
  · rw [if_pos h1] at hent
    by_cases h2 : ed.src = [] ∨ ed.dst = []
    · rw [if_pos h2] at hent
      exact hacc ent hent
    · rw [if_neg h2] at hent
      by_cases h3 : isDunder ((dictGet methodNames ed.dst).getD []) = true
      · rw [if_pos h3] at hent
        exact hacc ent hent
      · rw [if_neg h3] at hent
        exact dictAppend_forall _ ed.src _ (by simpa using h3) acc hacc ent hent
  · rw [if_neg h1] at hent
    exact hacc ent hent

theorem seqWalk_labels (adj : List (PyStr × List (PyStr × Nat)))
    (methods owner typeNames : List (PyStr × PyStr)) :
    ∀ (fuel : Nat) (mid : PyStr) (visiting : List PyStr) (st : SeqStep),
      st ∈ seqWalk adj methods owner typeNames fuel mid visiting →
      ∃ n, isDunder n = false ∧ st.label = n ++ pyS "()" := by
  intro fuel
  induction fuel with
  | zero =>
    intro mid visiting st hst
    simp [seqWalk] at hst
  | succ fuel ih =>
    intro mid visiting st hst
    unfold seqWalk at hst
    split at hst
    · simp at hst
    · split at hst
      · simp at hst
      · split at hst
        · simp at hst
        · refine foldl_mem_of_closed (fun st : SeqStep =>
            ∃ n, isDunder n = false ∧ st.label = n ++ pyS "()") _ ?_ _ [] (by simp) st hst
          intro acc item hacc st' hst'
          split at hst'
          · exact hacc st' hst'
          · split at hst'
            · exact hacc st' hst'
            · rename_i hdun
              split at hst'
              · exact hacc st' hst'
              · split at hst'
                · exact hacc st' hst'
                · rcases List.mem_append.1 hst' with h12 | h3
                  · rcases List.mem_append.1 h12 with h1 | h2
                    · exact hacc st' h1
                    · simp at h2
                      subst h2
                      exact ⟨(dictGet methods item.1).getD [], by simpa using hdun,
                        by simp [safeLabel_of_not_dunder _ (by simpa using hdun)]⟩
                  · exact ih item.1 (mid :: visiting) st' h3

/-- Claim C5 (amended): for each visited CALLS edge with known owner
classes whose target method name is not a dunder, a step labelled
`<member>()` is recorded; a CALLS edge whose target name is a dunder —
`__init__` included — is excluded from the adjacency and never becomes
a step, so every recorded step label has the form `<name>()` for a
non-dunder name and the `<<create>>` rendering of `_safe_sequence_label`
is never reached. -/
theorem C5_dunder_targets_skipped :
    (∀ (methodNames : List (PyStr × PyStr)) (edges : List CirEdge) e,
        e ∈ seqCallsBySrc methodNames edges →
        ∀ x, x ∈ e.2 → isDunder ((dictGet methodNames x.1).getD []) = false)
    ∧ (∀ (adj : List (PyStr × List (PyStr × Nat)))
        (methods owner typeNames : List (PyStr × PyStr)) fuel mid visiting st,
        st ∈ seqWalk adj methods owner typeNames fuel mid visiting →
        ∃ n, isDunder n = false ∧ st.label = n ++ pyS "()") :=
  ⟨seqCallsBySrc_no_dunder,
   fun adj methods owner typeNames => seqWalk_labels adj methods owner typeNames⟩

/-- Witness for C5: the amended statement applied to the concrete
constructor-call CIR — the one step recorded there is `go()`, for the
non-dunder target `go`. -/
theorem C5_steps_witness :
    ∃ n, isDunder n = false ∧
      (SeqStep.mk (pyS "A") (pyS "B") (pyS "go()")).label = n ++ pyS "()" :=
  C5_dunder_targets_skipped.2
    (seqCallsBySrc (seqMethodNames ctorCallCir.nodes) ctorCallCir.edges)
    (seqMethodNames ctorCallCir.nodes)
    (seqMethodOwner (seqTypeNames ctorCallCir.nodes) (seqMethodNames ctorCallCir.nodes)
      ctorCallCir.edges)
    (seqTypeNames ctorCallCir.nodes) 2 (pyS "method:A:main") []
    ⟨pyS "A", pyS "B", pyS "go()"⟩ (by decide)

theorem phase2Aux_none (methods : List (PyStr × PyStr))
    (adj : List (PyStr × List (PyStr × Nat))) :
    ∀ prefs : List PyStr,
      (∀ p, p ∈ prefs → ∀ q, q ∈ methods → ¬(q.2 = p ∧ dictHas adj q.1 = true)) →
      phase2Aux methods adj prefs none = none
  | [], _ => rfl
  | p :: rest, h => by
    have hf : methods.find? (fun q => q.2 == p && dictHas adj q.1) = none := by
      rw [List.find?_eq_none]
      intro q hq
      simp only [Bool.and_eq_true, beq_iff_eq, not_and]
      intro h1 h2
      exact h p (List.mem_cons_self _ _) q hq ⟨h1, h2⟩
    unfold phase2Aux
    rw [hf]
    rw [if_neg (by decide)]
    exact phase2Aux_none methods adj rest
      (fun p' hp' => h p' (List.mem_cons_of_mem _ hp'))

theorem phase2Aux_found (methods : List (PyStr × PyStr))
    (adj : List (PyStr × List (PyStr × Nat)))
    (hids : ∀ q, q ∈ methods → q.1 ≠ []) :
    ∀ prefs : List PyStr,
      (∃ p, p ∈ prefs ∧ ∃ q, q ∈ methods ∧ q.2 = p ∧ dictHas adj q.1 = true) →
      ∃ q, q ∈ methods ∧ phase2Aux methods adj prefs none = some q.1
        ∧ dictHas adj q.1 = true
        ∧ ∃ pre1 pre2, prefs = pre1 ++ q.2 :: pre2
            ∧ ∀ p, p ∈ pre1 → ∀ q', q' ∈ methods → ¬(q'.2 = p ∧ dictHas adj q'.1 = true)
  | [], h => absurd h (by simp)
  | p :: rest, h => by
    cases hf : methods.find? (fun q => q.2 == p && dictHas adj q.1) with
    | some q0 =>
      have hq0m : q0 ∈ methods := List.mem_of_find?_eq_some hf
      have hq0p := List.find?_some hf
      simp only [Bool.and_eq_true, beq_iff_eq] at hq0p
      refine ⟨q0, hq0m, ?_, hq0p.2, [], rest, ?_, by simp⟩
      · unfold phase2Aux
        rw [hf]
        rw [if_pos (by simp [optTruthy, hids q0 hq0m])]
      · simp [hq0p.1]
    | none =>
      have hnp : ∀ q', q' ∈ methods → ¬(q'.2 = p ∧ dictHas adj q'.1 = true) := by
        intro q' hq'
        have := List.find?_eq_none.1 hf q' hq'
        simp only [Bool.and_eq_true, beq_iff_eq, not_and] at this ⊢
        exact this
      have hrest : ∃ p', p' ∈ rest ∧ ∃ q, q ∈ methods ∧ q.2 = p' ∧ dictHas adj q.1 = true := by
        rcases h with ⟨p', hp', q, hq, hq2, hq3⟩
        rcases List.mem_cons.1 hp' with he | hm
        · exact absurd ⟨hq2.trans he, hq3⟩ (hnp q hq)
        · exact ⟨p', hm, q, hq, hq2, hq3⟩
      rcases phase2Aux_found methods adj hids rest hrest with
        ⟨q, hqm, hqe, hqa, pre1, pre2, hpre, hnone1⟩
      refine ⟨q, hqm, ?_, hqa, p :: pre1, pre2, by rw [hpre]; rfl, ?_⟩
      · unfold phase2Aux
        rw [hf]
        rw [if_neg (by decide)]
        exact hqe
      · intro p' hp' q' hq'
        rcases List.mem_cons.1 hp' with he | hm
        · exact he ▸ hnp q' hq'
        · exact hnone1 p' hm q' hq'

theorem pickEntry_main (methods : List (PyStr × PyStr))
    (adj : List (PyStr × List (PyStr × Nat)))
    (h : ∃ q, q ∈ methods ∧ q.2 = pyS "main" ∧ dictHas adj q.1 = true) :
    ∃ q, q ∈ methods ∧ pickEntry methods adj = some q.1
      ∧ q.2 = pyS "main" ∧ dictHas adj q.1 = true := by
  have hs : (methods.find? (fun q => q.2 == pyS "main" && dictHas adj q.1)).isSome := by
    rw [List.find?_isSome]
    rcases h with ⟨q, hq, h2, h3⟩
    exact ⟨q, hq, by simp [h2, h3]⟩
  rcases Option.isSome_iff_exists.1 hs with ⟨q0, hf⟩
  have hq0m : q0 ∈ methods := List.mem_of_find?_eq_some hf
  have hq0p := List.find?_some hf
  simp only [Bool.and_eq_true, beq_iff_eq] at hq0p
  refine ⟨q0, hq0m, ?_, hq0p.1, hq0p.2⟩
  unfold pickEntry
  rw [hf]
  rfl

theorem pickEntry_preferred (methods : List (PyStr × PyStr))
    (adj : List (PyStr × List (PyStr × Nat)))
    (hids : ∀ q, q ∈ methods → q.1 ≠ [])
    (hmain : ¬∃ q, q ∈ methods ∧ q.2 = pyS "main" ∧ dictHas adj q.1 = true)
    (h : ∃ q, q ∈ methods ∧ q.2 ∈ preferredEntryNames ∧ dictHas adj q.1 = true) :
    ∃ q, q ∈ methods ∧ pickEntry methods adj = some q.1
      ∧ dictHas adj q.1 = true
      ∧ ∃ pre1 pre2, preferredEntryNames = pre1 ++ q.2 :: pre2
          ∧ ∀ p, p ∈ pre1 → ∀ q', q' ∈ methods → ¬(q'.2 = p ∧ dictHas adj q'.1 = true) := by
  have hf : methods.find? (fun q => q.2 == pyS "main" && dictHas adj q.1) = none := by
    rw [List.find?_eq_none]
    intro q hq
    simp only [Bool.and_eq_true, beq_iff_eq, not_and]
    intro h1 h2
    exact hmain ⟨q, hq, h1, h2⟩
  have hex : ∃ p, p ∈ preferredEntryNames ∧ ∃ q, q ∈ methods ∧ q.2 = p ∧ dictHas adj q.1 = true := by
    rcases h with ⟨q, hq, hp, ha⟩
    exact ⟨q.2, hp, q, hq, rfl, ha⟩
  rcases phase2Aux_found methods adj hids preferredEntryNames hex with
    ⟨q, hqm, hqe, hqa, pre1, pre2, hpre, hnone1⟩
  refine ⟨q, hqm, ?_, hqa, pre1, pre2, hpre, hnone1⟩
  unfold pickEntry
  rw [hf, hqe]
  rfl

theorem pickEntry_fallback (methods : List (PyStr × PyStr))
    (adj : List (PyStr × List (PyStr × Nat)))
    (hmain : ¬∃ q, q ∈ methods ∧ q.2 = pyS "main" ∧ dictHas adj q.1 = true)
    (hpref : ¬∃ q, q ∈ methods ∧ q.2 ∈ preferredEntryNames ∧ dictHas adj q.1 = true)
    (h : ∃ kv, kv ∈ adj ∧ isDunder ((dictGet methods kv.1).getD []) = false) :
    ∃ kv, kv ∈ adj ∧ pickEntry methods adj = some kv.1
      ∧ isDunder ((dictGet methods kv.1).getD []) = false := by
  have hf : methods.find? (fun q => q.2 == pyS "main" && dictHas adj q.1) = none := by
    rw [List.find?_eq_none]
    intro q hq
    simp only [Bool.and_eq_true, beq_iff_eq, not_and]
    intro h1 h2
    exact hmain ⟨q, hq, h1, h2⟩
  have hp2 : phase2Aux methods adj preferredEntryNames none = none := by
    refine phase2Aux_none methods adj preferredEntryNames ?_
    intro p hp q hq hcontra
    exact hpref ⟨q, hq, hcontra.1 ▸ hp, hcontra.2⟩
  have hs : (adj.find? (fun kv => !isDunder ((dictGet methods kv.1).getD []))).isSome := by
    rw [List.find?_isSome]
    rcases h with ⟨kv, hkv, hd⟩
    exact ⟨kv, hkv, by simp [hd]⟩
  rcases Option.isSome_iff_exists.1 hs with ⟨kv0, hfind⟩
  have hkv0m : kv0 ∈ adj := List.mem_of_find?_eq_some hfind
  have hkv0p := List.find?_some hfind
  simp only [Bool.not_eq_true'] at hkv0p
  refine ⟨kv0, hkv0m, ?_, hkv0p⟩
  unfold pickEntry
  rw [hf, hp2, hfind]
  rfl

theorem genSeq_note (cir : CirJson)
    (hfalse : optTruthy (pickEntry (seqMethodNames cir.nodes)
      (seqCallsBySrc (seqMethodNames cir.nodes) cir.edges)) = false) :
    generateSequenceDiagram cir = joinNl [pyS "@startuml", [], seqNoteN1, pyS "@enduml"] := by
  unfold generateSequenceDiagram
  simp only [hfalse]
  simp

/-- Claim C9: the sequence-diagram emitter prefers a method named
`main` with outgoing (non-dunder-target) CALLS; otherwise a method
named by the first of `run, start, execute, process, handle, dispatch`
for which such a method exists; otherwise any adjacency source whose
method name is not a dunder; and when no entry is selected the output
is exactly the `@startuml`/`@enduml` wrapper around the single
explanatory note.  (`hids`: method-node ids are non-empty strings, so
Python truthiness of a found id equals its presence.) -/
theorem C9_entry_selection (cir : CirJson)
    (hids : ∀ q, q ∈ seqMethodNames cir.nodes → q.1 ≠ []) :
    ((∃ q, q ∈ seqMethodNames cir.nodes ∧ q.2 = pyS "main"
        ∧ dictHas (seqCallsBySrc (seqMethodNames cir.nodes) cir.edges) q.1 = true) →
      ∃ q, q ∈ seqMethodNames cir.nodes
        ∧ pickEntry (seqMethodNames cir.nodes)
            (seqCallsBySrc (seqMethodNames cir.nodes) cir.edges) = some q.1
        ∧ q.2 = pyS "main"
        ∧ dictHas (seqCallsBySrc (seqMethodNames cir.nodes) cir.edges) q.1 = true)
    ∧ ((¬∃ q, q ∈ seqMethodNames cir.nodes ∧ q.2 = pyS "main"
          ∧ dictHas (seqCallsBySrc (seqMethodNames cir.nodes) cir.edges) q.1 = true) →
       (∃ q, q ∈ seqMethodNames cir.nodes ∧ q.2 ∈ preferredEntryNames
          ∧ dictHas (seqCallsBySrc (seqMethodNames cir.nodes) cir.edges) q.1 = true) →
      ∃ q, q ∈ seqMethodNames cir.nodes
        ∧ pickEntry (seqMethodNames cir.nodes)
            (seqCallsBySrc (seqMethodNames cir.nodes) cir.edges) = some q.1
        ∧ dictHas (seqCallsBySrc (seqMethodNames cir.nodes) cir.edges) q.1 = true
        ∧ ∃ pre1 pre2, preferredEntryNames = pre1 ++ q.2 :: pre2
            ∧ ∀ p, p ∈ pre1 → ∀ q', q' ∈ seqMethodNames cir.nodes →
                ¬(q'.2 = p ∧ dictHas (seqCallsBySrc (seqMethodNames cir.nodes) cir.edges) q'.1 = true))
    ∧ ((¬∃ q, q ∈ seqMethodNames cir.nodes ∧ q.2 = pyS "main"
          ∧ dictHas (seqCallsBySrc (seqMethodNames cir.nodes) cir.edges) q.1 = true) →
       (¬∃ q, q ∈ seqMethodNames cir.nodes ∧ q.2 ∈ preferredEntryNames
          ∧ dictHas (seqCallsBySrc (seqMethodNames cir.nodes) cir.edges) q.1 = true) →
       (∃ kv, kv ∈ seqCallsBySrc (seqMethodNames cir.nodes) cir.edges
          ∧ isDunder ((dictGet (seqMethodNames cir.nodes) kv.1).getD []) = false) →
      ∃ kv, kv ∈ seqCallsBySrc (seqMethodNames cir.nodes) cir.edges
        ∧ pickEntry (seqMethodNames cir.nodes)
            (seqCallsBySrc (seqMethodNames cir.nodes) cir.edges) = some kv.1
        ∧ isDunder ((dictGet (seqMethodNames cir.nodes) kv.1).getD []) = false)
    ∧ (optTruthy (pickEntry (seqMethodNames cir.nodes)
          (seqCallsBySrc (seqMethodNames cir.nodes) cir.edges)) = false →
      generateSequenceDiagram cir = joinNl [pyS "@startuml", [], seqNoteN1, pyS "@enduml"]
        ∧ hasPre (pyS "@startuml") (joinNl [pyS "@startuml", [], seqNoteN1, pyS "@enduml"]) = true
        ∧ hasSuf (pyS "@enduml") (joinNl [pyS "@startuml", [], seqNoteN1, pyS "@enduml"]) = true) :=
  ⟨fun h => pickEntry_main _ _ h,
   fun hm hp => pickEntry_preferred _ _ hids hm hp,
   fun hm hp hf => pickEntry_fallback _ _ hm hp hf,
   fun hfalse => ⟨genSeq_note cir hfalse, by decide, by decide⟩⟩

/-- Witness for C9: in a CIR where both `main` and `run` have outgoing
CALLS, the entry chosen is the method named `main`. -/
theorem C9_entry_witness :
    ∃ q, q ∈ seqMethodNames entryCir.nodes
      ∧ pickEntry (seqMethodNames entryCir.nodes)
          (seqCallsBySrc (seqMethodNames entryCir.nodes) entryCir.edges) = some q.1
      ∧ q.2 = pyS "main"
      ∧ dictHas (seqCallsBySrc (seqMethodNames entryCir.nodes) entryCir.edges) q.1 = true :=
  (C9_entry_selection entryCir (by decide)).1 (by decide)

theorem methodFlagsAux_abstract (ds : List PyDec) :
    ∀ st ab cm, (methodFlagsAux ds st ab cm).2.1 =
      (ab || ds.any (fun d =>
        match d with
        | PyDec.decName id => id == pyS "abstractmethod"
        | PyDec.decAttr a => a == pyS "abstractmethod"
        | PyDec.decCall _ => false)) := by
  induction ds with
  | nil =>
    intro st ab cm
    simp [methodFlagsAux]
  | cons d rest ih =>
    intro st ab cm
    cases d with
    | decName id =>
      simp only [methodFlagsAux]
      split_ifs with h1 h2 h3
      · subst h1; rw [ih]; rfl
      · subst h2; rw [ih]; rfl
      · subst h3; rw [ih]; simp [List.any_cons]
      · rw [ih]
        simp [List.any_cons, beq_eq_false_iff_ne.2 h3]
    | decAttr a =>
      simp only [methodFlagsAux]
      split_ifs with h1
      · subst h1; rw [ih]; simp [List.any_cons]
      · rw [ih]
        simp [List.any_cons, beq_eq_false_iff_ne.2 h1]
    | decCall g =>
      simp only [methodFlagsAux]
      rw [ih]
      simp [List.any_cons]

theorem methodFlags_abstract_iff (f : PyFunc) :
    (methodFlags f).2.1 = true ↔
      ∃ d, d ∈ f.decorators ∧ (d = PyDec.decName (pyS "abstractmethod")
        ∨ d = PyDec.decAttr (pyS "abstractmethod")) := by
  unfold methodFlags
  rw [methodFlagsAux_abstract f.decorators false false false]
  simp only [Bool.false_or, List.any_eq_true]
  constructor
  · rintro ⟨d, hd, hp⟩
    refine ⟨d, hd, ?_⟩
    cases d with
    | decName id =>
      left
      simp only [beq_iff_eq] at hp
      rw [hp]
    | decAttr a =>
      right
      simp only [beq_iff_eq] at hp
      rw [hp]
    | decCall g => exact absurd hp (by simp)
  · rintro ⟨d, hd, h | h⟩ <;> subst h
    · exact ⟨_, hd, by simp⟩
    · exact ⟨_, hd, by simp⟩

theorem classFlags_abstract (node : PyClassDef) :
    (classFlags node).1 = true ↔ (pyS "ABC" ∈ node.bases ∨ pyS "abc.ABC" ∈ node.bases) := by
  unfold classFlags
  simp only [List.any_eq_true, Bool.or_eq_true, beq_iff_eq]
  constructor
  · rintro ⟨b, hb, hor | hor⟩
    · exact Or.inl (hor ▸ hb)
    · exact Or.inr (hor ▸ hb)
  · rintro (h | h)
    · exact ⟨_, h, Or.inl rfl⟩
    · exact ⟨_, h, Or.inr rfl⟩

theorem isAbcInterface_iff (node : PyClassDef) :
    isAbcInterface node = true ↔
      ((classFlags node).1 = true ∧ publicFuncs node ≠ []
        ∧ ∀ f, f ∈ publicFuncs node → (methodFlags f).2.1 = true) := by
  unfold isAbcInterface
  by_cases hab : (classFlags node).1 = true
  · rw [if_neg (by simp [hab])]
    by_cases hp : publicFuncs node = []
    · simp [hp, hab]
    · rcases List.exists_cons_of_ne_nil hp with ⟨a, l, he⟩
      rw [he]
      have hred : (match a :: l with
          | [] => false
          | ms => ms.all fun m => (methodFlags m).2.1) =
          (a :: l).all (fun m => (methodFlags m).2.1) := rfl
      rw [hred]
      simp [he, hab, List.all_eq_true]
  · rw [if_pos (by simp [hab])]
    simp [hab]

/-- Claim C10: the Python adapter assigns kind `interface` to a class
iff it subclasses `ABC` (or `abc.ABC`), has at least one public
(non-underscore-prefixed) method, and every such public method carries
an `@abstractmethod` (or `@abc.abstractmethod`) decorator; every other
class — abstract `ABC` subclasses failing the test included — gets kind
`class`. -/
theorem C10_interface_iff (node : PyClassDef) :
    (pyClassKind node = pyS "interface" ↔
      ((pyS "ABC" ∈ node.bases ∨ pyS "abc.ABC" ∈ node.bases)
        ∧ publicFuncs node ≠ []
        ∧ ∀ f, f ∈ publicFuncs node →
            ∃ d, d ∈ f.decorators ∧ (d = PyDec.decName (pyS "abstractmethod")
              ∨ d = PyDec.decAttr (pyS "abstractmethod"))))
    ∧ (pyClassKind node ≠ pyS "interface" → pyClassKind node = pyS "class") := by
  constructor
  · unfold pyClassKind
    by_cases hi : isAbcInterface node = true
    · rw [if_pos hi]
      have hparts := (isAbcInterface_iff node).1 hi
      exact iff_of_true rfl ⟨(classFlags_abstract node).1 hparts.1, hparts.2.1,
        fun f hf => (methodFlags_abstract_iff f).1 (hparts.2.2 f hf)⟩
    · rw [if_neg hi]
      have hfalse : ¬((pyS "ABC" ∈ node.bases ∨ pyS "abc.ABC" ∈ node.bases)
          ∧ publicFuncs node ≠ []
          ∧ ∀ f, f ∈ publicFuncs node →
              ∃ d, d ∈ f.decorators ∧ (d = PyDec.decName (pyS "abstractmethod")
                ∨ d = PyDec.decAttr (pyS "abstractmethod"))) := by
        intro hr
        exact hi ((isAbcInterface_iff node).2 ⟨(classFlags_abstract node).2 hr.1, hr.2.1,
          fun f hf => (methodFlags_abstract_iff f).2 (hr.2.2 f hf)⟩)
      refine iff_of_false ?_ hfalse
      split_ifs <;> decide
  · intro hne
    unfold pyClassKind at hne ⊢
    split_ifs at hne ⊢
    · exact absurd rfl hne
    · rfl
    · rfl

/-- Witness for C8: the amended id shapes at concrete inputs. -/
theorem C8_id_witness :
    (javaProcessCtor (pyS "Order") (pyS "Order") [pyS "public"]).id = pyS "ctor:Order:Order"
    ∧ (pyProcessMethod (pyS "m.C") ⟨pyS "run", [], [], [], none⟩).id = pyS "method:m.C:run" := by
  constructor
  · have h := (C8_method_id_shapes.1 (pyS "Order") (pyS "Order") [pyS "public"]).1
    rw [h]
    decide
  · have h := (C8_method_id_shapes.2.2 (pyS "m.C") ⟨pyS "run", [], [], [], none⟩).1
    rw [h]
    decide

/-- Witness for C10: an `ABC` subclass whose single public method is
abstract is an interface; an `ABC` subclass with a concrete public
method is a class. -/
theorem C10_interface_witness :
    pyClassKind abcClassNode = pyS "interface" ∧ pyClassKind plainClassNode = pyS "class" := by
  have habc : publicFuncs abcClassNode =
      [⟨pyS "draw", [.decName (pyS "abstractmethod")], [], [], none⟩] := rfl
  have hplain : publicFuncs plainClassNode = [⟨pyS "area", [], [], [], none⟩] := rfl
  constructor
  · refine (C10_interface_iff abcClassNode).1.2 ⟨Or.inl (by decide), ?_, ?_⟩
    · rw [habc]
      simp
    · rw [habc]
      intro f hf
      rw [List.mem_singleton] at hf
      subst hf
      exact ⟨.decName (pyS "abstractmethod"), List.mem_cons_self _ _, Or.inl rfl⟩
  · refine (C10_interface_iff plainClassNode).2 ?_
    intro hcontra
    have h := (C10_interface_iff plainClassNode).1.1 hcontra
    have h3 : (⟨pyS "area", [], [], [], none⟩ : PyFunc) ∈ publicFuncs plainClassNode := by
      rw [hplain]
      exact List.mem_singleton.2 rfl
    rcases h.2.2 _ h3 with ⟨d, hd, _⟩
    simp at hd
